import Mathlib

/-!
Verification development for the personal-finance dashboard's core logic
(CSV transaction parser, category classifier, recurring-charge detector,
insight generator), shallowly embedded from
`src/client/src/lib/utils/csv-parser.ts` (three concatenated modules:
csv-parser, categorize, insights) and the data model of `shared/schema.ts`.

Strings are modelled as lists of characters (`Str`); JS numbers as exact
rationals (`ℚ`); JS `Date` values as a calendar record (`JsDate`) with
UTC epoch-millisecond arithmetic over the proleptic Gregorian calendar.
JS host primitives (`parseFloat`, `Number.prototype.toFixed`,
`Math.round`, `Date` parsing) are modelled by executable functions that
follow the ECMAScript specification on the inputs this code base
produces and consumes (decimal numerals without exponent, ISO
`YYYY-MM-DD` date strings); `toLowerCase` is modelled on ASCII letters,
which covers every keyword and label in the source. JS object key
enumeration is modelled as insertion order (exact for the non-integer-like
keys this code uses), and `Array.prototype.sort` as a stable sort with
the source's comparator.
-/

/-- Characters of a JS string. -/
abbrev Str := List Char

/-- Character list of a Lean string literal, for writing `Str` constants. -/
def str (s : String) : Str := s.data

/-- JS `String.prototype.toLowerCase`, modelled on ASCII. -/
def toLowerStr (s : Str) : Str := s.map Char.toLower

/-- JS `String.prototype.toUpperCase` applied to one character (ASCII). -/
def toUpperChar (c : Char) : Char := c.toUpper

/-- Whitespace test backing the model of `String.prototype.trim`. -/
def isWs (c : Char) : Bool := c.isWhitespace

/-- JS `String.prototype.trim`: strip leading and trailing whitespace. -/
def trimChars (s : Str) : Str := ((s.dropWhile isWs).reverse.dropWhile isWs).reverse

/-- JS `String.prototype.includes`: substring containment. -/
def jsIncludes : Str → Str → Bool
  | s, sub =>
    if List.isPrefixOf sub s then true
    else match s with
      | [] => false
      | _ :: t => jsIncludes t sub

/-- JS `split(',')`. -/
def splitComma : Str → List Str
  | [] => [[]]
  | ',' :: rest => [] :: splitComma rest
  | c :: rest =>
    match splitComma rest with
    | l :: ls => (c :: l) :: ls
    | [] => [[c]]

/-- JS `split(' ')`. -/
def splitSpace : Str → List Str
  | [] => [[]]
  | ' ' :: rest => [] :: splitSpace rest
  | c :: rest =>
    match splitSpace rest with
    | l :: ls => (c :: l) :: ls
    | [] => [[c]]

/-- JS `split(/[\/\-\.]/)`: split on slash, hyphen or dot. -/
def splitDateSeps : Str → List Str
  | [] => [[]]
  | c :: rest =>
    if c = '/' ∨ c = '-' ∨ c = '.' then [] :: splitDateSeps rest
    else match splitDateSeps rest with
      | l :: ls => (c :: l) :: ls
      | [] => [[c]]

/-- Prefix one character onto the first piece of a split result. -/
def consOnHead (c : Char) : List Str → List Str
  | [] => [[c]]
  | l :: ls => (c :: l) :: ls

/-- JS `split(/\r?\n/)`: a lone carriage return does not split. -/
def splitLines : Str → List Str
  | [] => [[]]
  | '\r' :: '\n' :: rest => [] :: splitLines rest
  | '\n' :: rest => [] :: splitLines rest
  | c :: rest => consOnHead c (splitLines rest)

/-- JS `Math.round`: round half toward positive infinity. -/
def jsRound (q : ℚ) : ℤ := Rat.floor (q + 1 / 2)

/-- JS `Math.abs` on an exact rational. -/
def jsAbs (q : ℚ) : ℚ := if q < 0 then -q else q

/-- Decimal digit character for a digit value below ten. -/
def digitChar : ℕ → Char
  | 0 => '0'
  | 1 => '1'
  | 2 => '2'
  | 3 => '3'
  | 4 => '4'
  | 5 => '5'
  | 6 => '6'
  | 7 => '7'
  | 8 => '8'
  | _ => '9'

/-- Value of a decimal digit character. -/
def digitVal (c : Char) : ℕ := c.toNat - '0'.toNat

/-- Fuelled decimal rendering of a natural number (most significant first). -/
def natReprAux : ℕ → ℕ → Str
  | 0, _ => []
  | fuel + 1, n =>
    if n < 10 then [digitChar n]
    else natReprAux fuel (n / 10) ++ [digitChar (n % 10)]

/-- Decimal rendering of a natural number, as JS `Number.prototype.toString`
renders a nonnegative integer. -/
def natRepr (n : ℕ) : Str := natReprAux (n + 1) n

/-- Decimal rendering of an integer, as JS renders an integral number. -/
def intRepr (i : ℤ) : Str := if i < 0 then '-' :: natRepr i.natAbs else natRepr i.toNat

/-- Accumulating value of a run of decimal digit characters. -/
def digitsToNat (s : Str) : ℕ := s.foldl (fun a c => a * 10 + digitVal c) 0

/-- Magnitude part of the model of JS `parseFloat`: integer digits with an
optional fraction, no exponent forms (the source only feeds decimal
numerals). Returns `none` where JS yields `NaN`. -/
def parseFloatMag (s : Str) : Option ℚ :=
  let ip := s.takeWhile Char.isDigit
  match s.dropWhile Char.isDigit with
  | c :: r2 =>
    if c = '.' then
      let fp := r2.takeWhile Char.isDigit
      if ip = [] ∧ fp = [] then none
      else some ((digitsToNat ip : ℚ) + (digitsToNat fp : ℚ) / 10 ^ fp.length)
    else if ip = [] then none else some (digitsToNat ip)
  | [] => if ip = [] then none else some (digitsToNat ip)

/-- Model of JS `parseFloat`: leading whitespace skipped, optional sign,
decimal digits with optional fraction; `none` models `NaN`. -/
def parseFloat (s : Str) : Option ℚ :=
  match s.dropWhile isWs with
  | c :: r =>
    if c = '-' then (parseFloatMag r).map Neg.neg
    else if c = '+' then parseFloatMag r
    else parseFloatMag (c :: r)
  | [] => parseFloatMag []

/-- Two-digit zero-padded decimal rendering. -/
def pad2 (n : ℕ) : Str := [digitChar (n / 10 % 10), digitChar (n % 10)]

/-- Four-digit zero-padded decimal rendering. -/
def pad4 (n : ℕ) : Str :=
  [digitChar (n / 1000 % 10), digitChar (n / 100 % 10), digitChar (n / 10 % 10), digitChar (n % 10)]

/-- Model of JS `Number.prototype.toFixed(2)`: the integer `n` with
`n / 100` closest to the value (ties toward the larger `n`, per the
ECMAScript specification), rendered with exactly two decimals. -/
def toFixed2 (q : ℚ) : Str :=
  let n : ℤ := Rat.floor (q * 100 + 1 / 2)
  (if n < 0 then ['-'] else []) ++ natRepr (n.natAbs / 100) ++ '.' :: pad2 (n.natAbs % 100)

/-- Model of a JS `Date` holding a UTC calendar instant: `month` is 0-based
as returned by `getMonth`, `day` is 1-based, `msOfDay` the time of day in
milliseconds. -/
structure JsDate where
  year : ℕ
  month : ℕ
  day : ℕ
  msOfDay : ℕ
  deriving DecidableEq, Repr

/-- Gregorian leap-year test. -/
def isLeapYear (y : ℕ) : Bool := y % 4 = 0 && (y % 100 ≠ 0 || y % 400 = 0)

/-- Length of the 0-based month `m` in year `y`. -/
def daysInMonth (y m : ℕ) : ℕ :=
  if m = 1 then (if isLeapYear y then 29 else 28)
  else if m = 3 ∨ m = 5 ∨ m = 8 ∨ m = 10 then 30
  else 31

/-- A `JsDate` denoting a real calendar instant within the range the model
covers (years 0 to 9999, as serialized by `toISOString`). -/
def JsDate.valid (d : JsDate) : Prop :=
  d.year ≤ 9999 ∧ d.month < 12 ∧ 1 ≤ d.day ∧ d.day ≤ daysInMonth d.year d.month ∧
    d.msOfDay < 86400000

/-- Days from the civil epoch 1970-01-01 to year `y`, 1-based month `m`,
day `d` in the proleptic Gregorian calendar (truncating divisions on
nonnegative intermediate values). -/
def daysFromCivil (y : ℤ) (m d : ℤ) : ℤ :=
  let y2 := if m ≤ 2 then y - 1 else y
  let era := Int.tdiv (if 0 ≤ y2 then y2 else y2 - 399) 400
  let yoe := y2 - era * 400
  let mp := Int.tdiv ((if m ≤ 2 then m + 9 else m - 3) * 153 + 2) 5
  let doy := mp + d - 1
  let doe := yoe * 365 + Int.tdiv yoe 4 - Int.tdiv yoe 100 + doy
  era * 146097 + doe - 719468

/-- JS `Date.prototype.getTime`: UTC milliseconds since the epoch. -/
def JsDate.getTime (d : JsDate) : ℤ :=
  daysFromCivil (d.year : ℤ) ((d.month : ℤ) + 1) (d.day : ℤ) * 86400000 + (d.msOfDay : ℤ)

/-- JS `Date.prototype.getFullYear` (UTC model). -/
def JsDate.getFullYear (d : JsDate) : ℕ := d.year

/-- JS `Date.prototype.getMonth` (UTC model, 0-based). -/
def JsDate.getMonth (d : JsDate) : ℕ := d.month

/-- Date part of JS `Date.prototype.toISOString`: `YYYY-MM-DD`. -/
def toISODate (d : JsDate) : Str := pad4 d.year ++ '-' :: pad2 (d.month + 1) ++ '-' :: pad2 d.day

/-- Truncation of an instant to UTC midnight, as parsing the `YYYY-MM-DD`
serialization of a date yields. -/
def truncToDay (d : JsDate) : JsDate := { d with msOfDay := 0 }

/-- Parser for ISO `YYYY-MM-DD` date-only strings, validating the calendar
ranges as the ECMAScript date-time string format requires. -/
def parseIsoDate : Str → Option JsDate
  | [y1, y2, y3, y4, s1, m1, m2, s2, d1, d2] =>
    if (s1 = '-' ∧ s2 = '-') ∧
        (y1.isDigit && y2.isDigit && y3.isDigit && y4.isDigit &&
          m1.isDigit && m2.isDigit && d1.isDigit && d2.isDigit) = true then
      let y := digitVal y1 * 1000 + digitVal y2 * 100 + digitVal y3 * 10 + digitVal y4
      let mo := digitVal m1 * 10 + digitVal m2
      let da := digitVal d1 * 10 + digitVal d2
      if 1 ≤ mo ∧ mo ≤ 12 ∧ 1 ≤ da ∧ da ≤ daysInMonth y (mo - 1) then
        some ⟨y, mo - 1, da, 0⟩
      else none
    else none
  | _ => none

/-- Date-parsing block of `parseCsvLine`: first `new Date(dateStr)`
(modelled by the ECMAScript date-time string format, covered for the ISO
`YYYY-MM-DD` date-only strings; host-specific extra formats parse as
invalid); if that fails, split the string on slash, hyphen or dot and,
with exactly three parts, retry as `[part3]-[part1]-[part2]` and then as
`[part3]-[part2]-[part1]`. -/
def jsNewDate (s : Str) : Option JsDate :=
  match parseIsoDate s with
  | some date => some date
  | none =>
    match splitDateSeps s with
    | [p1, p2, p3] =>
      match parseIsoDate (p3 ++ '-' :: (p1 ++ '-' :: p2)) with
      | some date => some date
      | none => parseIsoDate (p3 ++ '-' :: (p2 ++ '-' :: p1))
    | _ => none

/-- Transaction row of `shared/schema.ts` (`transactions` table): the fields
the core logic reads, with `numeric` amounts as exact rationals. -/
structure Transaction where
  id : ℤ
  accountId : ℤ
  date : JsDate
  description : Str
  amount : ℚ
  category : Str
  merchant : Str
  deriving DecidableEq, Repr

/-- Insert form of a transaction (`InsertTransaction` of `shared/schema.ts`):
the row without its generated `id`. -/
structure InsertTransaction where
  accountId : ℤ
  date : JsDate
  description : Str
  amount : ℚ
  category : Str
  merchant : Str
  deriving DecidableEq, Repr

/-- Account row of `shared/schema.ts` (`accounts` table): the fields the
core logic reads. -/
structure Account where
  id : ℤ
  name : Str
  type : Str
  institution : Str
  balance : ℚ
  accountNumber : Str
  deriving DecidableEq, Repr

/-- Insight record (`InsertInsight` of `shared/schema.ts`): the insight
generator always sets an integral `savingsAmount` (every value it stores
passes through `Math.round`). -/
structure InsertInsight where
  title : Str
  description : Str
  savingsAmount : ℤ
  type : Str
  actionLink : Str
  deriving DecidableEq, Repr

/-- Result record of `parseTransactionCsv`. -/
structure ParsedCsvResult where
  transactions : List InsertTransaction
  errors : List Str
  deriving DecidableEq, Repr

/-- The `detectCsvFormat` helper: header sets containing
date/description/amount map to the "standard" format, date/description
with a debit or credit column to the "bank" format. -/
def detectCsvFormat (headers : List Str) : Option Str :=
  if headers.contains (str "date") && headers.contains (str "description") &&
      headers.contains (str "amount") then
    some (str "standard")
  else if headers.contains (str "date") && headers.contains (str "description") &&
      (headers.contains (str "debit") || headers.contains (str "credit")) then
    some (str "bank")
  else none

/-- Character loop of `parseCsvValues`: a double quote toggles the
inside-quotes state, a comma outside quotes ends the current value, any
other character is accumulated; values are trimmed. -/
def parseCsvValuesGo : Str → Str → Bool → List Str
  | [], currentValue, _ => [trimChars currentValue]
  | c :: rest, currentValue, insideQuotes =>
    if c = '"' then parseCsvValuesGo rest currentValue (!insideQuotes)
    else if c = ',' ∧ insideQuotes = false then
      trimChars currentValue :: parseCsvValuesGo rest [] false
    else parseCsvValuesGo rest (currentValue ++ [c]) insideQuotes

/-- The `parseCsvValues` helper: tokenize a CSV line respecting
double-quote-enclosed fields. -/
def parseCsvValues (line : Str) : List Str := parseCsvValuesGo line [] false

/-- The `extractMerchant` helper: whole description when it has at most
three space-separated words, else the first two words. -/
def extractMerchant (description : Str) : Str :=
  let words := splitSpace description
  if words.length = 0 then str "Unknown"
  else if words.length ≤ 3 then description
  else List.intercalate [' '] (words.take 2)

/-- Field dictionary built by `parseCsvLine`'s `headers.forEach` loop:
positional assignment `row[header] = values[index]`, a later duplicate
header overwriting an earlier one; JS `undefined` and the empty string
are both falsy, so missing keys read as the empty string. -/
def rowGet (headers values : List Str) (key : Str) : Str :=
  (((headers.zip values).reverse.lookup key).getD [])

/-- Common text fields of the TS union `Transaction | InsertTransaction`
consumed by `categorizeTransaction`. -/
structure TxText where
  description : Str
  merchant : Str
  amount : ℚ

/-- View of an insert transaction as classifier input. -/
def InsertTransaction.txText (t : InsertTransaction) : TxText :=
  ⟨t.description, t.merchant, t.amount⟩

/-- View of a stored transaction as classifier input. -/
def Transaction.txText (t : Transaction) : TxText :=
  ⟨t.description, t.merchant, t.amount⟩

/-- Keyword rule of the categorize module. -/
structure CategoryRule where
  keywords : List Str
  category : Str

/-- The fixed ordered rule table `categoryRules` of the categorize module. -/
def categoryRules : List CategoryRule :=
  [⟨[str "rent", str "mortgage", str "apartment", str "home", str "property", str "loan",
      str "house"], str "Housing"⟩,
   ⟨[str "market", str "grocery", str "supermarket", str "food", str "restaurant", str "dining",
      str "cafe", str "coffee", str "breakfast", str "lunch", str "dinner", str "meal",
      str "doordash", str "uber eats", str "grubhub", str "pizza", str "takeout"], str "Food"⟩,
   ⟨[str "gas", str "fuel", str "uber", str "lyft", str "taxi", str "car", str "auto",
      str "vehicle", str "maintenance", str "repair", str "oil", str "tire", str "parking",
      str "transport", str "transit", str "bus", str "train", str "subway", str "metro"],
    str "Transportation"⟩,
   ⟨[str "amazon", str "walmart", str "target", str "costco", str "shop", str "store",
      str "retail", str "mall", str "outlet", str "purchase", str "buy", str "clothes",
      str "clothing", str "apparel", str "shoes", str "accessory", str "electronics",
      str "appliance", str "hardware"], str "Shopping"⟩,
   ⟨[str "electric", str "electricity", str "gas", str "water", str "sewer", str "trash",
      str "internet", str "cable", str "phone", str "mobile", str "cellular", str "utility",
      str "bill", str "service"], str "Utilities"⟩,
   ⟨[str "doctor", str "hospital", str "medical", str "health", str "healthcare", str "dental",
      str "vision", str "pharmacy", str "prescription", str "medicine", str "clinic",
      str "emergency", str "insurance", str "fitness", str "gym", str "wellness"],
    str "Healthcare"⟩,
   ⟨[str "movie", str "theatre", str "theater", str "cinema", str "concert", str "show",
      str "entertainment", str "music", str "spotify", str "netflix", str "hulu", str "disney",
      str "streaming", str "subscription", str "game", str "hobby", str "fun", str "leisure"],
    str "Entertainment"⟩,
   ⟨[str "school", str "college", str "university", str "tuition", str "education",
      str "course", str "class", str "degree", str "student", str "book", str "textbook",
      str "study", str "learning", str "training", str "workshop"], str "Education"⟩,
   ⟨[str "hotel", str "motel", str "lodging", str "airbnb", str "vacation", str "holiday",
      str "trip", str "travel", str "flight", str "airline", str "airplane", str "booking",
      str "reservation", str "ticket", str "tour", str "cruise", str "resort"], str "Travel"⟩,
   ⟨[str "salary", str "payroll", str "deposit", str "income", str "revenue", str "wage",
      str "payment", str "compensation", str "bonus", str "commission", str "dividend",
      str "interest", str "refund", str "return", str "reimbursement"], str "Income"⟩]

/-- Rule-iteration loop of `categorizeTransaction`: return the category of
the first rule with a keyword substring match, else "Other". -/
def matchRules (searchText : Str) : List CategoryRule → Str
  | [] => str "Other"
  | rule :: rest =>
    if rule.keywords.any (fun keyword => jsIncludes searchText (toLowerStr keyword)) then
      rule.category
    else matchRules searchText rest

/-- The `categorizeTransaction` function of the categorize module. -/
def categorizeTransaction (transaction : TxText) : Str :=
  let searchText := toLowerStr (transaction.description ++ ' ' :: transaction.merchant)
  if transaction.amount > 0 then str "Income"
  else matchRules searchText categoryRules

/-- Bank-format amount resolution inside `parseCsvLine`: a positive debit
becomes a negative amount, else a positive credit a positive amount, else
the row-level error; a `none` from `parseFloat` models `NaN` and an empty
field short-circuits to `0` through JS falsiness. -/
def resolveBankAmount (debitStr creditStr : Str) : Except Str ℚ :=
  let debit : Option ℚ := if debitStr ≠ [] then parseFloat debitStr else some 0
  let credit : Option ℚ := if creditStr ≠ [] then parseFloat creditStr else some 0
  match debit with
  | some d =>
    if d > 0 then .ok (-d)
    else match credit with
      | some c => if c > 0 then .ok c else .error (str "Missing or invalid debit/credit values")
      | none => .error (str "Missing or invalid debit/credit values")
  | none =>
    match credit with
    | some c => if c > 0 then .ok c else .error (str "Missing or invalid debit/credit values")
    | none => .error (str "Missing or invalid debit/credit values")

/-- The `parseCsvLine` helper: one CSV line to a transaction, with thrown
errors modelled as `Except.error` carrying the message the catch block of
`parseTransactionCsv` would render. -/
def parseCsvLine (line : Str) (headers : List Str) (format : Str) (accountId : ℤ) :
    Except Str InsertTransaction :=
  let values := parseCsvValues line
  if values.length < headers.length then
    .error (str "Line has " ++ natRepr values.length ++ str " values but expected " ++
      natRepr headers.length)
  else
    let row := rowGet headers values
    let dateStr := row (str "date")
    if dateStr = [] then .error (str "Missing date")
    else
      match jsNewDate dateStr with
      | none => .error (str "Invalid date: " ++ dateStr)
      | some date =>
        let description := if row (str "description") = [] then str "Unknown"
          else row (str "description")
        let amountRes : Except Str ℚ :=
          if format = str "standard" then
            match parseFloat (row (str "amount")) with
            | none => .error (str "Invalid amount: " ++ row (str "amount"))
            | some a => .ok a
          else if format = str "bank" then
            resolveBankAmount (row (str "debit")) (row (str "credit"))
          else .error (str "Unsupported format")
        match amountRes with
        | .error e => .error e
        | .ok amount =>
          let transaction : InsertTransaction :=
            { accountId := accountId, date := date, description := description,
              amount := amount,
              category := if row (str "category") = [] then str "Other" else row (str "category"),
              merchant := if row (str "merchant") = [] then extractMerchant description
                else row (str "merchant") }
          if row (str "category") = [] ∨ trimChars (row (str "category")) = [] then
            .ok { transaction with category := categorizeTransaction transaction.txText }
          else .ok transaction

/-- Data-line loop of `parseTransactionCsv` (`for i in 1..`): `lineNo` is
the 1-based display line number `i + 1`; blank lines are skipped, a caught
row error is recorded as `Error on line N: <reason>`, parsing continues. -/
def processLines (headers : List Str) (format : Str) (accountId : ℤ) :
    ℕ → List Str → ParsedCsvResult
  | _, [] => ⟨[], []⟩
  | lineNo, l :: rest =>
    let res := processLines headers format accountId (lineNo + 1) rest
    let line := trimChars l
    if line = [] then res
    else
      match parseCsvLine line headers format accountId with
      | .ok transaction => ⟨transaction :: res.transactions, res.errors⟩
      | .error e =>
        ⟨res.transactions, (str "Error on line " ++ natRepr lineNo ++ str ": " ++ e) :: res.errors⟩

/-- The `parseTransactionCsv` entry point: split into lines, read the
header row case-insensitively, detect the format (unsupported headers
short-circuit with a single error), then parse each data line. -/
def parseTransactionCsv (csvData : Str) (accountId : ℤ) : ParsedCsvResult :=
  let lines := splitLines csvData
  let headers := (splitComma (toLowerStr (lines.headD []))).map trimChars
  match detectCsvFormat headers with
  | none =>
    ⟨[], [str "Unsupported CSV format. Expected columns: date, description, amount (or debit/credit)"]⟩
  | some format => processLines headers format accountId 2 (lines.drop 1)

/-- Quote escaping of `transactionsToCSV`: `replace(/"/g, '""')`. -/
def escQuotes (s : Str) : Str := (s.map (fun c => if c = '"' then ['"', '"'] else [c])).flatten

/-- The `transactionsToCSV` export function: fixed header row, ISO dates,
double-quoted description and merchant, amounts via `toFixed(2)`. -/
def transactionsToCSV (transactions : List InsertTransaction) : Str :=
  transactions.foldl
    (fun csv tx =>
      let date := toISODate tx.date
      let description := '"' :: escQuotes tx.description ++ ['"']
      let amount := toFixed2 tx.amount
      let category := if tx.category = [] then str "Other" else tx.category
      let merchant := '"' :: escQuotes tx.merchant ++ ['"']
      csv ++ date ++ ',' :: description ++ ',' :: amount ++ ',' :: category ++
        ',' :: merchant ++ ['\n'])
    (str "Date,Description,Amount,Category,Merchant\n")

/-- First-match lookup in an insertion-ordered association list, modelling
JS object property access. -/
def lookupA {β : Type} : List (Str × β) → Str → Option β
  | [], _ => none
  | (k, v) :: rest, key => if k = key then some v else lookupA rest key

/-- In-place accumulation `map[category] += amount` with insertion-order
key creation, modelling the inner object of `spendingByMonthAndCategory`. -/
def addSpending : List (Str × ℚ) → Str → ℚ → List (Str × ℚ)
  | [], category, amt => [(category, amt)]
  | (k, v) :: rest, category, amt =>
    if k = category then (k, v + amt) :: rest
    else (k, v) :: addSpending rest category amt

/-- In-place accumulation into the outer month-keyed object of
`spendingByMonthAndCategory`. -/
def addMonthCat : List (Str × List (Str × ℚ)) → Str → Str → ℚ → List (Str × List (Str × ℚ))
  | [], monthYear, category, amt => [(monthYear, addSpending [] category amt)]
  | (k, m) :: rest, monthYear, category, amt =>
    if k = monthYear then (k, addSpending m category amt) :: rest
    else (k, m) :: addMonthCat rest monthYear category amt

/-- Month bucket key `${date.getFullYear()}-${date.getMonth()}` (0-based
month, not zero-padded). -/
def monthKey (d : JsDate) : Str := natRepr d.getFullYear ++ '-' :: natRepr d.getMonth

/-- Bucketing loop of `findSpendingIncreases`: absolute expense amounts
summed by month key and category, income (amount ≥ 0) skipped. -/
def spendingByMonthAndCategory (transactions : List Transaction) :
    List (Str × List (Str × ℚ)) :=
  transactions.foldl
    (fun buckets transaction =>
      if transaction.amount ≥ 0 then buckets
      else addMonthCat buckets (monthKey transaction.date) transaction.category
        (jsAbs transaction.amount))
    []

/-- JS default string comparison (`Array.prototype.sort()` with no
comparator): lexicographic on code units. -/
def strLe : Str → Str → Bool
  | [], _ => true
  | _ :: _, [] => false
  | a :: as, b :: bs =>
    if a.toNat < b.toNat then true
    else if b.toNat < a.toNat then false
    else strLe as bs

/-- Propositional form of `strLe` for the sort of the month keys. -/
def strLeR (a b : Str) : Prop := strLe a b = true

instance : DecidableRel strLeR := fun a b => instDecidableEqBool (strLe a b) true

/-- Descending-savings comparator relation of the insight sort
`(a, b) => Number(b.savingsAmount) - Number(a.savingsAmount)`. -/
def savGeR (a b : InsertInsight) : Prop := b.savingsAmount ≤ a.savingsAmount

instance : DecidableRel savGeR := fun a b => Int.decLe b.savingsAmount a.savingsAmount

/-- Per-category body of the `Object.entries(currentMonthData).forEach`
loop of `findSpendingIncreases`: `amount` is the category's spend in the
selected current month, compared against the selected previous month's
data; `some` is a pushed insight. -/
def spendingInsight (previousMonthData : List (Str × ℚ)) (category : Str) (amount : ℚ) :
    Option InsertInsight :=
  let previousAmount := (lookupA previousMonthData category).getD 0
  if previousAmount > 50 then
    let increasePercent := jsRound ((amount - previousAmount) / previousAmount * 100)
    let absoluteIncrease := jsRound (amount - previousAmount)
    if 20 ≤ increasePercent ∧ 50 ≤ absoluteIncrease then
      if category ≠ str "Income" ∧ category ≠ str "Other" then
        let potentialSavings := jsRound ((absoluteIncrease : ℚ) * (7 / 10))
        some { title := category ++ str " Spending Increased",
               description := str "Your " ++ toLowerStr category ++ str " spending is up " ++
                 intRepr increasePercent ++
                 str "% from last month. Setting a budget could save you $" ++
                 intRepr potentialSavings ++ str "/month.",
               savingsAmount := potentialSavings,
               type := str "spending-alert",
               actionLink := str "/budgets/new" }
      else none
    else none
  else none

/-- The `findSpendingIncreases` analysis: bucket by month and category,
sort the month keys with the default string sort, compare the last two
keys of the sorted order, keep the top 3 insights by savings. -/
def findSpendingIncreases (transactions : List Transaction) : List InsertInsight :=
  let buckets := spendingByMonthAndCategory transactions
  let months := List.insertionSort strLeR (buckets.map Prod.fst)
  if months.length < 2 then []
  else
    let currentMonth := months.getD (months.length - 1) []
    let previousMonth := months.getD (months.length - 2) []
    let currentMonthData := (lookupA buckets currentMonth).getD []
    let previousMonthData := (lookupA buckets previousMonth).getD []
    let insights := currentMonthData.filterMap
      (fun p => spendingInsight previousMonthData p.1 p.2)
    (List.insertionSort savGeR insights).take 3

/-- The fixed keyword list of `findSubscriptionOverlaps`. -/
def subscriptionKeywords : List Str :=
  [str "netflix", str "hulu", str "disney+", str "hbo", str "spotify", str "apple music",
   str "youtube", str "amazon prime", str "paramount", str "peacock"]

/-- Keyword scan of one transaction in `findSubscriptionOverlaps`: the
`for ... break` loop keeps the first matching keyword. -/
def firstSubscriptionKeyword (transaction : Transaction) : Option Str :=
  let description := toLowerStr transaction.description
  let merchant := toLowerStr transaction.merchant
  let text := description ++ ' ' :: merchant
  subscriptionKeywords.find? (fun keyword => jsIncludes text keyword)

/-- Loop body of the transaction scan of `findSubscriptionOverlaps`: the
`for ... break` keyword loop records the first matching keyword into the
service set and hit list. -/
def subscriptionStep (acc : List Str × List (Str × ℚ)) (transaction : Transaction) :
    List Str × List (Str × ℚ) :=
  match firstSubscriptionKeyword transaction with
  | none => acc
  | some keyword =>
    (if acc.1.contains keyword then acc.1 else acc.1 ++ [keyword],
     acc.2 ++ [(keyword, jsAbs transaction.amount)])

/-- The `findSubscriptionOverlaps` analysis: collect matched services (a
JS `Set`, insertion-ordered and deduplicated) and all matched transaction
amounts; with at least 3 distinct services, emit one insight naming the
first 3 and proposing 40% of the total as savings. -/
def findSubscriptionOverlaps (transactions : List Transaction) : List InsertInsight :=
  let scan := transactions.foldl subscriptionStep ([], [])
  let streamingServices := scan.1
  let subscriptionTransactions := scan.2
  if 3 ≤ streamingServices.length then
    let services := streamingServices.take 3
    let totalAmount := subscriptionTransactions.foldl (fun sum sub => sum + sub.2) 0
    let monthlySavings := jsRound (totalAmount * (4 / 10))
    [{ title := str "Subscription Overlap Detected",
       description := str "You have multiple streaming subscriptions (" ++
         List.intercalate (str ", ") services ++
         str "). Consider consolidating to save $" ++ intRepr monthlySavings ++ str "/month.",
       savingsAmount := monthlySavings,
       type := str "subscription",
       actionLink := str "/insights/subscriptions" }]
  else []

/-- The `findHighYieldSavingsOpportunities` analysis: savings accounts
above $1000, extra interest at a 3.5% high-yield rate versus the assumed
1% (the source's `0.01`) current rate, emitted only above $20. -/
def findHighYieldSavingsOpportunities (accounts : List Account) : List InsertInsight :=
  let savingsAccounts := accounts.filter
    (fun account => toLowerStr account.type = str "savings" ∧ account.balance > 1000)
  if savingsAccounts.length > 0 then
    let totalSavings := savingsAccounts.foldl (fun sum account => sum + account.balance) 0
    let currentYearlyInterest := totalSavings * (1 / 100)
    let potentialYearlyInterest := totalSavings * (35 / 1000)
    let additionalInterest := jsRound (potentialYearlyInterest - currentYearlyInterest)
    if additionalInterest > 20 then
      [{ title := str "High-Yield Savings Opportunity",
         description := str "Moving your savings to an online bank could earn you an extra $" ++
           intRepr additionalInterest ++ str "/year in interest.",
         savingsAmount := additionalInterest,
         type := str "high-yield",
         actionLink := str "/insights/savings" }]
    else []
  else []

/-- The `generateInsights` entry point: empty on empty transactions or
accounts, else the three sub-analyses concatenated in fixed order. -/
def generateInsights (transactions : List Transaction) (accounts : List Account) :
    List InsertInsight :=
  if transactions.length = 0 ∨ accounts.length = 0 then []
  else
    findSubscriptionOverlaps transactions ++ findHighYieldSavingsOpportunities accounts ++
      findSpendingIncreases transactions

/-- Per-merchant accumulator of `findRecurringTransactions`. -/
structure RecurringGroup where
  dates : List JsDate
  amounts : List ℚ
  category : Str
  deriving DecidableEq, Repr

/-- Group update of the recurring scan: push date and amount onto an
existing merchant entry, or create it (insertion-ordered) with the first
transaction's category. -/
def addRecurring : List (Str × RecurringGroup) → Str → JsDate → ℚ → Str →
    List (Str × RecurringGroup)
  | [], merchant, date, amount, category => [(merchant, ⟨[date], [amount], category⟩)]
  | (k, g) :: rest, merchant, date, amount, category =>
    if k = merchant then
      (k, { g with dates := g.dates ++ [date], amounts := g.amounts ++ [amount] }) :: rest
    else (k, g) :: addRecurring rest merchant date amount category

/-- Loop body of the grouping scan of `findRecurringTransactions`:
expenses only (amount < 0), the sub-$5 noise floor dropped, grouped by
lower-cased merchant. -/
def recurringStep (items : List (Str × RecurringGroup)) (transaction : Transaction) :
    List (Str × RecurringGroup) :=
  if transaction.amount ≥ 0 then items
  else
    let merchant := toLowerStr transaction.merchant
    let amount := jsAbs transaction.amount
    if amount < 5 then items
    else addRecurring items merchant transaction.date amount transaction.category

/-- Grouping scan of `findRecurringTransactions`. -/
def recurringItems (transactions : List Transaction) : List (Str × RecurringGroup) :=
  transactions.foldl recurringStep []

/-- Ascending comparator relation of the date sort
`(a, b) => a.getTime() - b.getTime()`. -/
def dateLeR (a b : JsDate) : Prop := a.getTime ≤ b.getTime

instance : DecidableRel dateLeR := fun a b => Int.decLe a.getTime b.getTime

/-- Summed `Math.round`-ed day gaps between consecutive sorted dates. -/
def gapDaysSum : List JsDate → ℤ
  | a :: b :: rest => jsRound (((b.getTime - a.getTime : ℤ) : ℚ) / 86400000) + gapDaysSum (b :: rest)
  | _ => 0

/-- Frequency classification of `findRecurringTransactions` by mean
day-gap range; `none` is the silently dropped ambiguous pattern. -/
def classifyFrequency (avgDaysBetween : ℚ) : Option Str :=
  if 25 ≤ avgDaysBetween ∧ avgDaysBetween ≤ 35 then some (str "monthly")
  else if 6 ≤ avgDaysBetween ∧ avgDaysBetween ≤ 8 then some (str "weekly")
  else if 13 ≤ avgDaysBetween ∧ avgDaysBetween ≤ 16 then some (str "bi-weekly")
  else if 85 ≤ avgDaysBetween ∧ avgDaysBetween ≤ 95 then some (str "quarterly")
  else none

/-- JS `charAt(0).toUpperCase() + slice(1)` merchant display
capitalization. -/
def capitalize : Str → Str
  | [] => []
  | c :: rest => toUpperChar c :: rest

/-- Output record of `findRecurringTransactions`. -/
structure RecurringResult where
  merchant : Str
  category : Str
  averageAmount : ℚ
  frequency : Str
  deriving DecidableEq, Repr

/-- Descending comparator relation of the result sort
`(a, b) => b.averageAmount - a.averageAmount`. -/
def avgAmountGeR (a b : RecurringResult) : Prop := b.averageAmount ≤ a.averageAmount

instance : DecidableRel avgAmountGeR := fun a b => Rat.instDecidableLe b.averageAmount a.averageAmount

/-- The `avgDaysBetween` computation of the analysis loop: dates sorted
ascending, mean of the rounded consecutive day gaps. -/
def meanGapDays (data : RecurringGroup) : ℚ :=
  let sortedDates := List.insertionSort dateLeR data.dates
  let totalDaysBetween := gapDaysSum sortedDates
  (totalDaysBetween : ℚ) / ((data.dates.length - 1 : ℕ) : ℚ)

/-- The `avgAmount` computation of the analysis loop: mean of the stored
absolute amounts. -/
def meanAmount (data : RecurringGroup) : ℚ :=
  data.amounts.foldl (fun sum amount => sum + amount) 0 / (data.amounts.length : ℚ)

/-- Per-merchant body of the `Object.entries(recurringItems).forEach`
analysis loop: at least two occurrences, mean day gap classified into a
frequency window, average amount rounded to cents. -/
def analyzeGroup (merchant : Str) (data : RecurringGroup) : Option RecurringResult :=
  if data.dates.length < 2 then none
  else
    match classifyFrequency (meanGapDays data) with
    | none => none
    | some frequency =>
      some { merchant := capitalize merchant, category := data.category,
             averageAmount := (jsRound (meanAmount data * 100) : ℚ) / 100,
             frequency := frequency }

/-- The `findRecurringTransactions` entry point; the declared
`timeframeMonths` parameter (default 3) is never read by the body, as in
the source. -/
def findRecurringTransactions (transactions : List Transaction) (timeframeMonths : ℚ := 3) :
    List RecurringResult :=
  List.insertionSort avgAmountGeR
    ((recurringItems transactions).filterMap (fun p => analyzeGroup p.1 p.2))

/-- First-match characterization of the rule-iteration loop of
`categorizeTransaction`. -/
theorem matchRules_eq_find (searchText : Str) (rules : List CategoryRule) :
    matchRules searchText rules =
      ((rules.find? (fun r =>
          r.keywords.any (fun keyword => jsIncludes searchText (toLowerStr keyword)))).map
        CategoryRule.category).getD (str "Other") := by
  induction rules with
  | nil => rfl
  | cons r rest ih =>
    by_cases h : r.keywords.any (fun keyword => jsIncludes searchText (toLowerStr keyword)) = true
    · simp [matchRules, List.find?_cons, h]
    · simp only [Bool.not_eq_true] at h
      simp [matchRules, List.find?_cons, h, ih]

/-- C5: `categorizeTransaction` is pure and returns "Income" for every
positive amount regardless of text content; otherwise it returns the
category of the first rule of the fixed ordered table whose keyword set
has a substring match in the lower-cased description-and-merchant search
string, and "Other" when no rule matches. -/
theorem categorizeTransaction_spec (t : TxText) :
    (0 < t.amount → categorizeTransaction t = str "Income") ∧
    (¬ 0 < t.amount →
      categorizeTransaction t =
        ((categoryRules.find? (fun r =>
            r.keywords.any (fun keyword =>
              jsIncludes (toLowerStr (t.description ++ ' ' :: t.merchant))
                (toLowerStr keyword)))).map
          CategoryRule.category).getD (str "Other")) := by
  constructor
  · intro h
    simp [categorizeTransaction, h]
  · intro h
    simp [categorizeTransaction, h, matchRules_eq_find]

/-- Witness for C5 at concrete inputs: a positive amount is "Income"
whatever the text says. -/
theorem categorizeTransaction_spec_witness :
    categorizeTransaction ⟨str "anything", str "anything", 50⟩ = str "Income" :=
  (categorizeTransaction_spec ⟨str "anything", str "anything", 50⟩).1 (by norm_num)

/-- C9: the declared `timeframeMonths` parameter is never read, so any two
values produce the same analysis result. -/
theorem findRecurringTransactions_timeframe_irrelevant
    (transactions : List Transaction) (t1 t2 : ℚ) :
    findRecurringTransactions transactions t1 = findRecurringTransactions transactions t2 := rfl

/-- The subscription sub-analysis emits at most one insight. -/
theorem findSubscriptionOverlaps_length_le (transactions : List Transaction) :
    (findSubscriptionOverlaps transactions).length ≤ 1 := by
  unfold findSubscriptionOverlaps
  dsimp only
  split <;> simp

/-- Every subscription-overlap insight carries the "subscription" type. -/
theorem findSubscriptionOverlaps_types (transactions : List Transaction) :
    ∀ i ∈ findSubscriptionOverlaps transactions, i.type = str "subscription" := by
  unfold findSubscriptionOverlaps
  dsimp only
  split <;> simp

/-- The high-yield sub-analysis emits at most one insight. -/
theorem findHighYieldSavingsOpportunities_length_le (accounts : List Account) :
    (findHighYieldSavingsOpportunities accounts).length ≤ 1 := by
  unfold findHighYieldSavingsOpportunities
  dsimp only
  split <;> (try split) <;> simp

/-- Every high-yield insight carries the "high-yield" type. -/
theorem findHighYieldSavingsOpportunities_types (accounts : List Account) :
    ∀ i ∈ findHighYieldSavingsOpportunities accounts, i.type = str "high-yield" := by
  unfold findHighYieldSavingsOpportunities
  dsimp only
  split <;> (try split) <;> simp

/-- A pushed spending insight carries the "spending-alert" type. -/
theorem spendingInsight_type (previousMonthData : List (Str × ℚ)) (category : Str)
    (amount : ℚ) (i : InsertInsight)
    (h : spendingInsight previousMonthData category amount = some i) :
    i.type = str "spending-alert" := by
  unfold spendingInsight at h
  dsimp only at h
  split_ifs at h
  cases h
  rfl

/-- The spending sub-analysis emits at most three insights. -/
theorem findSpendingIncreases_length_le (transactions : List Transaction) :
    (findSpendingIncreases transactions).length ≤ 3 := by
  unfold findSpendingIncreases
  dsimp only
  split
  · simp
  · exact (List.length_take_le 3 _)

/-- Every spending insight carries the "spending-alert" type. -/
theorem findSpendingIncreases_types (transactions : List Transaction) :
    ∀ i ∈ findSpendingIncreases transactions, i.type = str "spending-alert" := by
  unfold findSpendingIncreases
  dsimp only
  split
  · simp
  · intro i hi
    have hi2 := List.take_subset 3 _ hi
    have hi3 := (List.perm_insertionSort savGeR _).mem_iff.mp hi2
    obtain ⟨p, -, hp⟩ := List.mem_filterMap.mp hi3
    exact spendingInsight_type _ _ _ _ hp

/-- C10: `generateInsights` always returns the subscription insights, then
the high-yield insights, then the spending alerts, bounded by 1, 1 and 3
respectively, hence at most 5 insights in total. -/
theorem generateInsights_structure (transactions : List Transaction) (accounts : List Account) :
    ∃ s h a, generateInsights transactions accounts = s ++ h ++ a ∧
      s.length ≤ 1 ∧ h.length ≤ 1 ∧ a.length ≤ 3 ∧
      (∀ i ∈ s, i.type = str "subscription") ∧
      (∀ i ∈ h, i.type = str "high-yield") ∧
      (∀ i ∈ a, i.type = str "spending-alert") ∧
      (generateInsights transactions accounts).length ≤ 5 := by
  unfold generateInsights
  split
  · exact ⟨[], [], [], by simp⟩
  · refine ⟨findSubscriptionOverlaps transactions, findHighYieldSavingsOpportunities accounts,
      findSpendingIncreases transactions, rfl, findSubscriptionOverlaps_length_le _,
      findHighYieldSavingsOpportunities_length_le _, findSpendingIncreases_length_le _,
      findSubscriptionOverlaps_types _, findHighYieldSavingsOpportunities_types _,
      findSpendingIncreases_types _, ?_⟩
    simp only [List.length_append]
    have h1 := findSubscriptionOverlaps_length_le transactions
    have h2 := findHighYieldSavingsOpportunities_length_le accounts
    have h3 := findSpendingIncreases_length_le transactions
    omega

/-- Witness for C10 at a concrete input. -/
theorem generateInsights_structure_witness : (generateInsights [] []).length ≤ 5 :=
  (generateInsights_structure [] []).choose_spec.choose_spec.choose_spec.2.2.2.2.2.2.2

/-- The model of `parseFloat` yields `NaN` on the empty string. -/
theorem parseFloat_nil : parseFloat [] = none := rfl

/-- C6: under the "bank" format a positive debit yields amount `-debit`,
else a positive credit yields `+credit`, else the row-level error
"Missing or invalid debit/credit values"; and the sample row
`2024-02-01,Paycheck,,2500` under `date,description,debit,credit`
resolves to amount +2500. -/
theorem resolveBankAmount_spec :
    (∀ debitStr creditStr : Str, ∀ d : ℚ, parseFloat debitStr = some d → 0 < d →
        resolveBankAmount debitStr creditStr = .ok (-d)) ∧
    (∀ debitStr creditStr : Str, ∀ c : ℚ,
        (∀ d : ℚ, parseFloat debitStr = some d → d ≤ 0) →
        parseFloat creditStr = some c → 0 < c →
        resolveBankAmount debitStr creditStr = .ok c) ∧
    (∀ debitStr creditStr : Str,
        (∀ d : ℚ, parseFloat debitStr = some d → d ≤ 0) →
        (∀ c : ℚ, parseFloat creditStr = some c → c ≤ 0) →
        resolveBankAmount debitStr creditStr =
          .error (str "Missing or invalid debit/credit values")) ∧
    parseTransactionCsv (str "date,description,debit,credit\n2024-02-01,Paycheck,,2500") 7 =
      ⟨[{ accountId := 7, date := ⟨2024, 1, 1, 0⟩, description := str "Paycheck",
          amount := 2500, category := str "Income", merchant := str "Paycheck" }], []⟩ := by
  refine ⟨?_, ?_, ?_, by with_unfolding_all rfl⟩
  · intro debitStr creditStr d hd hpos
    by_cases hne : debitStr = []
    · rw [hne, parseFloat_nil] at hd
      cases hd
    · simp [resolveBankAmount, hne, hd, hpos]
  · intro debitStr creditStr c hdle hc hcpos
    by_cases hcne : creditStr = []
    · rw [hcne, parseFloat_nil] at hc
      cases hc
    · by_cases hne : debitStr = []
      · simp [resolveBankAmount, hne, hcne, hc, hcpos]
      · cases hdd : parseFloat debitStr with
        | none => simp [resolveBankAmount, hne, hcne, hc, hcpos, hdd]
        | some d =>
          have hd0 : ¬ d > 0 := not_lt.mpr (hdle d hdd)
          simp [resolveBankAmount, hne, hcne, hc, hcpos, hdd, hd0]
  · intro debitStr creditStr hdle hcle
    have hcred : ∀ c : ℚ, parseFloat creditStr = some c → ¬ c > 0 :=
      fun c hcc => not_lt.mpr (hcle c hcc)
    by_cases hne : debitStr = [] <;> by_cases hcne : creditStr = []
    · simp [resolveBankAmount, hne, hcne]
    · cases hcc : parseFloat creditStr with
      | none => simp [resolveBankAmount, hne, hcne, hcc]
      | some c => simp [resolveBankAmount, hne, hcne, hcc, hcred c hcc]
    · cases hdd : parseFloat debitStr with
      | none => simp [resolveBankAmount, hne, hcne, hdd]
      | some d => simp [resolveBankAmount, hne, hcne, hdd, not_lt.mpr (hdle d hdd)]
    · cases hdd : parseFloat debitStr with
      | none =>
        cases hcc : parseFloat creditStr with
        | none => simp [resolveBankAmount, hne, hcne, hdd, hcc]
        | some c => simp [resolveBankAmount, hne, hcne, hdd, hcc, hcred c hcc]
      | some d =>
        cases hcc : parseFloat creditStr with
        | none => simp [resolveBankAmount, hne, hcne, hdd, hcc, not_lt.mpr (hdle d hdd)]
        | some c =>
          simp [resolveBankAmount, hne, hcne, hdd, hcc, not_lt.mpr (hdle d hdd), hcred c hcc]

/-- Witness for C6 at concrete inputs: debit "10" wins over credit "3". -/
theorem resolveBankAmount_spec_witness :
    resolveBankAmount (str "10") (str "3") = .ok (-10) :=
  resolveBankAmount_spec.1 (str "10") (str "3") 10 (by with_unfolding_all rfl) (by norm_num)

/-- Insertion-ordered first-occurrence deduplication, relative to an
already-seen prefix: the order a JS `Set` accumulates distinct values. -/
def dedupFirstGo (seen : List Str) : List Str → List Str
  | [] => []
  | k :: rest =>
    if seen.contains k then dedupFirstGo seen rest
    else k :: dedupFirstGo (seen ++ [k]) rest

/-- Insertion-ordered first-occurrence deduplication. -/
def dedupFirst (l : List Str) : List Str := dedupFirstGo [] l

/-- Loop characterization of the subscription scan: the service set is the
insertion-ordered deduplication of the per-transaction first keyword
matches, and the hit list collects every match with its absolute
amount. -/
theorem foldl_subscription (transactions : List Transaction) (acc : List Str × List (Str × ℚ)) :
    List.foldl subscriptionStep acc transactions =
      (acc.1 ++ dedupFirstGo acc.1 (transactions.filterMap firstSubscriptionKeyword),
       acc.2 ++ transactions.filterMap
         (fun tx => (firstSubscriptionKeyword tx).map (fun k => (k, jsAbs tx.amount)))) := by
  induction transactions generalizing acc with
  | nil => simp [dedupFirstGo]
  | cons tx rest ih =>
    simp only [List.foldl_cons, List.filterMap_cons]
    cases h : firstSubscriptionKeyword tx with
    | none => simp [subscriptionStep, h, ih]
    | some k =>
      by_cases hk : k ∈ acc.1
      · simp [subscriptionStep, h, hk, ih, dedupFirstGo]
      · simp [subscriptionStep, h, hk, ih, dedupFirstGo, List.append_assoc]

/-- Sum of the recorded hit amounts equals the sum of absolute amounts of
the matching transactions. -/
theorem subscription_total (transactions : List Transaction) :
    List.foldl (fun sum sub => sum + sub.2) (0 : ℚ)
      (transactions.filterMap
        (fun tx => (firstSubscriptionKeyword tx).map (fun k => (k, jsAbs tx.amount)))) =
      ((transactions.filter (fun tx => (firstSubscriptionKeyword tx).isSome)).map
        (fun tx => jsAbs tx.amount)).sum := by
  have hfold : ∀ (l : List (Str × ℚ)) (a : ℚ),
      l.foldl (fun sum sub => sum + sub.2) a = a + (l.map Prod.snd).sum := by
    intro l
    induction l with
    | nil => simp
    | cons p rest ih => intro a; simp [ih, add_assoc]
  have hmap : (transactions.filterMap
      (fun tx => (firstSubscriptionKeyword tx).map (fun k => (k, jsAbs tx.amount)))).map
        Prod.snd =
      (transactions.filter (fun tx => (firstSubscriptionKeyword tx).isSome)).map
        (fun tx => jsAbs tx.amount) := by
    induction transactions with
    | nil => rfl
    | cons tx rest ih =>
      cases h : firstSubscriptionKeyword tx with
      | none => simp [List.filterMap_cons, List.filter_cons, h, ih]
      | some k => simp [List.filterMap_cons, List.filter_cons, h, ih]
  rw [hfold, hmap, zero_add]

/-- C8: the subscription-overlap analysis emits exactly one insight when at
least 3 distinct subscription keywords match (first matching keyword per
transaction), naming the first 3 matched services in insertion order, with
savings `round(0.4 ×` the sum of the absolute amounts of all matched
transactions`)`; otherwise it emits nothing. -/
theorem findSubscriptionOverlaps_spec (transactions : List Transaction) :
    findSubscriptionOverlaps transactions =
      (let services := dedupFirst (transactions.filterMap firstSubscriptionKeyword)
       let totalAmount := ((transactions.filter
           (fun tx => (firstSubscriptionKeyword tx).isSome)).map
         (fun tx => jsAbs tx.amount)).sum
       if 3 ≤ services.length then
         [{ title := str "Subscription Overlap Detected",
            description := str "You have multiple streaming subscriptions (" ++
              List.intercalate (str ", ") (services.take 3) ++
              str "). Consider consolidating to save $" ++
              intRepr (jsRound (totalAmount * (4 / 10))) ++ str "/month.",
            savingsAmount := jsRound (totalAmount * (4 / 10)),
            type := str "subscription",
            actionLink := str "/insights/subscriptions" }]
       else []) := by
  unfold findSubscriptionOverlaps
  rw [foldl_subscription]
  dsimp only
  simp only [List.nil_append]
  rw [subscription_total]
  simp [dedupFirst]

instance : IsTotal RecurringResult avgAmountGeR :=
  ⟨fun a b => le_total b.averageAmount a.averageAmount⟩

instance : IsTrans RecurringResult avgAmountGeR :=
  ⟨fun _ _ _ hab hbc => le_trans hbc hab⟩

/-- Sample recurring Spotify charge for the frequency example. -/
def spotifyTx (y mo d : ℕ) : Transaction :=
  ⟨1, 1, ⟨y, mo, d, 0⟩, str "Spotify", -(999 / 100), str "Entertainment", str "Spotify"⟩

/-- C7: the recurring-transaction analysis considers only expenses of at
least $5; a result is produced from a merchant group exactly when the
group has at least 2 occurrences and the mean of the rounded consecutive
day gaps of its ascending-sorted dates falls in the 25-35 (monthly), 6-8
(weekly), 13-16 (bi-weekly) or 85-95 (quarterly) day window, carrying the
cent-rounded mean absolute amount; results are sorted by descending
average amount; three $9.99 Spotify charges 30 and 31 days apart come out
"monthly" at 9.99. -/
theorem findRecurringTransactions_spec :
    (∀ transactions : List Transaction,
        recurringItems transactions =
          recurringItems (transactions.filter
            (fun t => decide (t.amount < 0) && decide (5 ≤ jsAbs t.amount)))) ∧
    (∀ (transactions : List Transaction) (t : ℚ) (r : RecurringResult),
        r ∈ findRecurringTransactions transactions t ↔
          ∃ p ∈ recurringItems transactions, analyzeGroup p.1 p.2 = some r) ∧
    (∀ (merchant : Str) (data : RecurringGroup) (r : RecurringResult),
        analyzeGroup merchant data = some r ↔
          2 ≤ data.dates.length ∧
            ∃ frequency, classifyFrequency (meanGapDays data) = some frequency ∧
              r = { merchant := capitalize merchant, category := data.category,
                    averageAmount := (jsRound (meanAmount data * 100) : ℚ) / 100,
                    frequency := frequency }) ∧
    (∀ (transactions : List Transaction) (t : ℚ),
        List.Sorted avgAmountGeR (findRecurringTransactions transactions t)) ∧
    findRecurringTransactions [spotifyTx 2024 0 1, spotifyTx 2024 0 31, spotifyTx 2024 2 2] 3 =
      [⟨str "Spotify", str "Entertainment", 999 / 100, str "monthly"⟩] := by
  refine ⟨?_, ?_, ?_, ?_, by with_unfolding_all rfl⟩
  · intro transactions
    unfold recurringItems
    suffices h : ∀ (txs : List Transaction) (items : List (Str × RecurringGroup)),
        txs.foldl recurringStep items =
          (txs.filter (fun t => decide (t.amount < 0) && decide (5 ≤ jsAbs t.amount))).foldl
            recurringStep items from h transactions []
    intro txs
    induction txs with
    | nil => intro items; rfl
    | cons tx rest ih =>
      intro items
      by_cases h1 : tx.amount ≥ 0
      · have hb : ¬ tx.amount < 0 := not_lt.mpr h1
        simp [List.filter_cons, hb, recurringStep, h1, ih]
      · by_cases h2 : jsAbs tx.amount < 5
        · have hb : ¬ 5 ≤ jsAbs tx.amount := not_le.mpr h2
          simp [List.filter_cons, not_le.mp h1, hb, recurringStep, h1, h2, ih]
        · simp [List.filter_cons, not_le.mp h1, not_lt.mp h2, recurringStep, h1, h2, ih]
  · intro transactions t r
    unfold findRecurringTransactions
    rw [(List.perm_insertionSort avgAmountGeR _).mem_iff, List.mem_filterMap]
  · intro merchant data r
    unfold analyzeGroup
    split
    · rename_i hlen
      simp only [false_iff, reduceCtorEq]
      intro h
      omega
    · rename_i hlen
      cases hc : classifyFrequency (meanGapDays data) with
      | none => simp [hc]
      | some f =>
        simp only [hc, Option.some_inj]
        constructor
        · rintro rfl
          exact ⟨by omega, f, rfl, rfl⟩
        · rintro ⟨-, f', hf', rfl⟩
          cases hf'
          rfl
  · intro transactions t
    exact List.sorted_insertionSort _ _

/-- Witness for C7: the Spotify example extracted through the theorem. -/
theorem findRecurringTransactions_spec_witness :
    findRecurringTransactions [spotifyTx 2024 0 1, spotifyTx 2024 0 31, spotifyTx 2024 2 2] 3 =
      [⟨str "Spotify", str "Entertainment", 999 / 100, str "monthly"⟩] :=
  findRecurringTransactions_spec.2.2.2.2

/-- Sample expense transaction for the spending-increase examples. -/
def spendTx (y mo d : ℕ) (category : String) (amount : ℚ) : Transaction :=
  ⟨1, 1, ⟨y, mo, d, 0⟩, str "x", amount, str category, str "m"⟩

/-- C2 (amended): a spending-alert insight is emitted for a category
exactly when the previous month's spend exceeds $50, the rounded percent
increase is at least 20, the rounded absolute increase is at least $50,
and the category is neither "Income" nor "Other"; its savings amount is
`round(0.7 × rounded absolute increase)`; at most the top 3 insights by
savings are kept; $100 then $160 yields savings 42 and $100 then $110
yields no insight. -/
theorem findSpendingIncreases_thresholds :
    (∀ (previousMonthData : List (Str × ℚ)) (category : Str) (amount : ℚ),
      spendingInsight previousMonthData category amount =
        (let previousAmount := (lookupA previousMonthData category).getD 0
         let increasePercent := jsRound ((amount - previousAmount) / previousAmount * 100)
         let absoluteIncrease := jsRound (amount - previousAmount)
         if 50 < previousAmount ∧ 20 ≤ increasePercent ∧ 50 ≤ absoluteIncrease ∧
             category ≠ str "Income" ∧ category ≠ str "Other" then
           some { title := category ++ str " Spending Increased",
                  description := str "Your " ++ toLowerStr category ++ str " spending is up " ++
                    intRepr increasePercent ++
                    str "% from last month. Setting a budget could save you $" ++
                    intRepr (jsRound ((absoluteIncrease : ℚ) * (7 / 10))) ++ str "/month.",
                  savingsAmount := jsRound ((absoluteIncrease : ℚ) * (7 / 10)),
                  type := str "spending-alert",
                  actionLink := str "/budgets/new" }
         else none)) ∧
    (∀ transactions : List Transaction, (findSpendingIncreases transactions).length ≤ 3) ∧
    findSpendingIncreases [spendTx 2024 0 15 "Food" (-100), spendTx 2024 1 15 "Food" (-160)] =
      [{ title := str "Food Spending Increased",
         description :=
           str "Your food spending is up 60% from last month. Setting a budget could save you $42/month.",
         savingsAmount := 42, type := str "spending-alert", actionLink := str "/budgets/new" }] ∧
    findSpendingIncreases [spendTx 2024 0 15 "Food" (-100), spendTx 2024 1 15 "Food" (-110)] =
      [] := by
  refine ⟨?_, findSpendingIncreases_length_le, by with_unfolding_all rfl,
    by with_unfolding_all rfl⟩
  intro prev category amount
  unfold spendingInsight
  dsimp only
  by_cases h1 : (lookupA prev category).getD 0 > 50
  · by_cases h2 : 20 ≤ jsRound ((amount - (lookupA prev category).getD 0) /
        (lookupA prev category).getD 0 * 100) ∧
        50 ≤ jsRound (amount - (lookupA prev category).getD 0)
    · by_cases h3 : category ≠ str "Income" ∧ category ≠ str "Other"
      · rw [if_pos h1, if_pos h2, if_pos h3, if_pos ⟨h1, h2.1, h2.2, h3.1, h3.2⟩]
      · rw [if_pos h1, if_pos h2, if_neg h3, if_neg (by tauto)]
    · rw [if_pos h1, if_neg h2, if_neg (by tauto)]
  · rw [if_neg h1, if_neg (by tauto)]

/-- Witness for C2: the $100-to-$160 example extracted through the
theorem. -/
theorem findSpendingIncreases_thresholds_witness :
    findSpendingIncreases [spendTx 2024 0 15 "Food" (-100), spendTx 2024 1 15 "Food" (-160)] =
      [{ title := str "Food Spending Increased",
         description :=
           str "Your food spending is up 60% from last month. Setting a budget could save you $42/month.",
         savingsAmount := 42, type := str "spending-alert", actionLink := str "/budgets/new" }] :=
  findSpendingIncreases_thresholds.2.2.1

/-- Counterexample to C2 as stated: with $100 previous and $149.50 current
spend the true absolute increase is $49.50, below the claimed $50 floor,
yet the code's `Math.round` of the increase reaches 50 and an insight is
emitted (savings 35). -/
theorem spendingIncrease_exact_threshold_counterexample :
    findSpendingIncreases
        [spendTx 2024 0 15 "Food" (-100), spendTx 2024 1 15 "Food" (-(299 / 2))] =
      [{ title := str "Food Spending Increased",
         description :=
           str "Your food spending is up 50% from last month. Setting a budget could save you $35/month.",
         savingsAmount := 35, type := str "spending-alert", actionLink := str "/budgets/new" }] ∧
    (299 / 2 : ℚ) - 100 < 50 :=
  ⟨by with_unfolding_all rfl, by norm_num⟩

/-- C1 (divergence witness): with Food expenses of $200 in October 2024 and
$100 in November 2024, November is chronologically later and its spend is
lower, so a latest-versus-preceding comparison yields no insight; but the
default string sort places the bucket key "2024-10" before "2024-9", so
the code takes October as the current month, November as the previous
month, and emits a Food increase insight with savings 70. -/
theorem findSpendingIncreases_month_order_bug :
    (spendTx 2024 9 15 "Food" (-200)).date.getTime <
        (spendTx 2024 10 15 "Food" (-100)).date.getTime ∧
    jsAbs (spendTx 2024 10 15 "Food" (-100)).amount -
        jsAbs (spendTx 2024 9 15 "Food" (-200)).amount < 50 ∧
    monthKey (spendTx 2024 9 15 "Food" (-200)).date = str "2024-9" ∧
    monthKey (spendTx 2024 10 15 "Food" (-100)).date = str "2024-10" ∧
    strLe (str "2024-10") (str "2024-9") = true ∧
    findSpendingIncreases [spendTx 2024 9 15 "Food" (-200), spendTx 2024 10 15 "Food" (-100)] =
      [{ title := str "Food Spending Increased",
         description :=
           str "Your food spending is up 100% from last month. Setting a budget could save you $70/month.",
         savingsAmount := 70, type := str "spending-alert", actionLink := str "/budgets/new" }] :=
  ⟨by decide, by norm_num [spendTx, jsAbs], by with_unfolding_all rfl, by with_unfolding_all rfl,
    by decide, by with_unfolding_all rfl⟩

/-- Loop characterization of `processLines`: each nonblank data line
contributes its parsed transaction or its display-numbered error
string. -/
theorem processLines_spec (headers : List Str) (format : Str) (accountId : ℤ)
    (n : ℕ) (ls : List Str) :
    processLines headers format accountId n ls =
      ⟨(ls.enumFrom n).filterMap (fun p =>
          if trimChars p.2 = [] then none
          else (parseCsvLine (trimChars p.2) headers format accountId).toOption),
        (ls.enumFrom n).filterMap (fun p =>
          if trimChars p.2 = [] then none
          else
            match parseCsvLine (trimChars p.2) headers format accountId with
            | .ok _ => none
            | .error e => some (str "Error on line " ++ natRepr p.1 ++ str ": " ++ e))⟩ := by
  induction ls generalizing n with
  | nil => rfl
  | cons l rest ih =>
    simp only [processLines, List.enumFrom, List.filterMap_cons]
    rw [ih]
    by_cases ht : trimChars l = []
    · simp [ht]
    · cases hp : parseCsvLine (trimChars l) headers format accountId with
      | ok tx => simp [ht, hp, Except.toOption]
      | error e => simp [ht, hp, Except.toOption]

/-- C4: the parse of an arbitrary input never fails as a whole: an
unrecognized header short-circuits with exactly one format error and zero
transactions; otherwise every nonblank data line contributes its parsed
transaction when well formed and an "Error on line N: <reason>" string
when malformed, with parsing continuing over the remaining lines, so that
every error string is the format error or a line-numbered row error. -/
theorem parseTransactionCsv_error_handling (csvData : Str) (accountId : ℤ) :
    (detectCsvFormat ((splitComma (toLowerStr ((splitLines csvData).headD []))).map trimChars) =
        none →
      parseTransactionCsv csvData accountId =
        ⟨[], [str "Unsupported CSV format. Expected columns: date, description, amount (or debit/credit)"]⟩) ∧
    (∀ format,
      detectCsvFormat ((splitComma (toLowerStr ((splitLines csvData).headD []))).map trimChars) =
          some format →
      (parseTransactionCsv csvData accountId).transactions =
        (((splitLines csvData).drop 1).enumFrom 2).filterMap (fun p =>
          if trimChars p.2 = [] then none
          else (parseCsvLine (trimChars p.2)
            ((splitComma (toLowerStr ((splitLines csvData).headD []))).map trimChars)
            format accountId).toOption) ∧
      (parseTransactionCsv csvData accountId).errors =
        (((splitLines csvData).drop 1).enumFrom 2).filterMap (fun p =>
          if trimChars p.2 = [] then none
          else
            match parseCsvLine (trimChars p.2)
              ((splitComma (toLowerStr ((splitLines csvData).headD []))).map trimChars)
              format accountId with
            | .ok _ => none
            | .error e => some (str "Error on line " ++ natRepr p.1 ++ str ": " ++ e))) ∧
    (∀ e ∈ (parseTransactionCsv csvData accountId).errors,
      e = str "Unsupported CSV format. Expected columns: date, description, amount (or debit/credit)" ∨
      ∃ (n : ℕ) (reason : Str),
        e = str "Error on line " ++ natRepr n ++ str ": " ++ reason) := by
  unfold parseTransactionCsv
  dsimp only
  cases hdet : detectCsvFormat
      ((splitComma (toLowerStr ((splitLines csvData).headD []))).map trimChars) with
  | none =>
    refine ⟨fun _ => rfl, ?_, ?_⟩
    · intro format hf
      cases hf
    · intro e he
      simp only [List.mem_singleton] at he
      exact Or.inl he
  | some f =>
    refine ⟨?_, ?_, ?_⟩
    · intro h
      cases h
    · intro format hf
      cases hf
      dsimp only
      rw [processLines_spec]
      exact ⟨rfl, rfl⟩
    · intro e he
      dsimp only at he
      rw [processLines_spec] at he
      simp only at he
      obtain ⟨p, -, hfp⟩ := List.mem_filterMap.mp he
      by_cases ht : trimChars p.2 = []
      · rw [if_pos ht] at hfp
        cases hfp
      · rw [if_neg ht] at hfp
        cases hp : parseCsvLine (trimChars p.2)
            ((splitComma (toLowerStr ((splitLines csvData).headD []))).map trimChars)
            f accountId with
        | ok tx => rw [hp] at hfp; cases hfp
        | error e2 =>
          rw [hp] at hfp
          cases hfp
          exact Or.inr ⟨p.1, e2, rfl⟩

/-- Witness for C4: a one-word input has no usable header and parses to
zero transactions with the single format error. -/
theorem parseTransactionCsv_error_handling_witness :
    parseTransactionCsv (str "foo") 1 =
      ⟨[], [str "Unsupported CSV format. Expected columns: date, description, amount (or debit/credit)"]⟩ :=
  (parseTransactionCsv_error_handling (str "foo") 1).1 (by with_unfolding_all rfl)

/-- Character facts about every digit character the renderers emit. -/
theorem digitChar_spec (m : ℕ) :
    (digitChar m).isDigit = true ∧ isWs (digitChar m) = false ∧ digitChar m ≠ ',' ∧
    digitChar m ≠ '"' ∧ digitChar m ≠ '\n' ∧ digitChar m ≠ '\r' ∧ digitChar m ≠ '-' ∧
    digitChar m ≠ '+' ∧ digitChar m ≠ '.' := by
  unfold digitChar
  split <;> decide

/-- A digit character decodes back to its digit. -/
theorem digitVal_digitChar {d : ℕ} (h : d < 10) : digitVal (digitChar d) = d := by
  interval_cases d <;> decide

/-- Core facts about the fuelled decimal renderer, for sufficient fuel:
nonempty digit-character output whose fold-decoding appends the rendered
value to the accumulator. -/
theorem natReprAux_spec : ∀ fuel n : ℕ, n < fuel →
    natReprAux fuel n ≠ [] ∧ (∀ c ∈ natReprAux fuel n, ∃ m, c = digitChar m) ∧
      ∀ acc : ℕ, List.foldl (fun a c => a * 10 + digitVal c) acc (natReprAux fuel n) =
        acc * 10 ^ (natReprAux fuel n).length + n := by
  intro fuel
  induction fuel with
  | zero => intro n hn; omega
  | succ fuel ih =>
    intro n hn
    by_cases h10 : n < 10
    · refine ⟨by simp [natReprAux, h10], ?_, ?_⟩
      · intro c hc
        simp [natReprAux, h10] at hc
        exact ⟨n, hc⟩
      · intro acc
        simp [natReprAux, h10, digitVal_digitChar h10]
    · have hdiv : n / 10 < fuel := by
        have := Nat.div_lt_self (by omega : 0 < n) (by omega : 1 < 10)
        omega
      obtain ⟨hne, hmem, hfold⟩ := ih (n / 10) hdiv
      have heq : natReprAux (fuel + 1) n = natReprAux fuel (n / 10) ++ [digitChar (n % 10)] := by
        simp [natReprAux, h10]
      refine ⟨by simp [heq], ?_, ?_⟩
      · intro c hc
        rw [heq] at hc
        rcases List.mem_append.mp hc with h | h
        · exact hmem c h
        · exact ⟨n % 10, by simpa using h⟩
      · intro acc
        rw [heq, List.foldl_append, hfold]
        simp only [List.foldl_cons, List.foldl_nil, List.length_append, List.length_singleton]
        rw [digitVal_digitChar (Nat.mod_lt n (by omega))]
        calc (acc * 10 ^ (natReprAux fuel (n / 10)).length + n / 10) * 10 + n % 10
            = acc * (10 ^ (natReprAux fuel (n / 10)).length * 10) + (10 * (n / 10) + n % 10) := by
              ring
          _ = acc * 10 ^ ((natReprAux fuel (n / 10)).length + 1) + n := by
              rw [Nat.div_add_mod, pow_succ]

/-- The decimal renderer emits a nonempty string of digit characters that
decodes back to its input. -/
theorem natRepr_spec (n : ℕ) :
    natRepr n ≠ [] ∧ (∀ c ∈ natRepr n, ∃ m, c = digitChar m) ∧ digitsToNat (natRepr n) = n := by
  obtain ⟨h1, h2, h3⟩ := natReprAux_spec (n + 1) n (by omega)
  exact ⟨h1, h2, by simpa [digitsToNat] using h3 0⟩

/-- Dropping a false-headed prefix changes nothing. -/
theorem dropWhile_eq_self_of_all (p : Char → Bool) (s : Str) (h : ∀ c ∈ s, p c = false) :
    s.dropWhile p = s := by
  cases s with
  | nil => rfl
  | cons c r => simp [List.dropWhile_cons, h c (by simp)]

/-- Trimming a string without whitespace characters changes nothing. -/
theorem trimChars_eq_self (s : Str) (h : ∀ c ∈ s, isWs c = false) : trimChars s = s := by
  unfold trimChars
  rw [dropWhile_eq_self_of_all _ s h,
    dropWhile_eq_self_of_all _ s.reverse (fun c hc => h c (List.mem_reverse.mp hc)),
    List.reverse_reverse]

/-- `takeWhile` consumes exactly an all-true prefix stopped by the suffix
head. -/
theorem takeWhile_append_of_all (p : Char → Bool) (xs ys : Str)
    (hx : ∀ c ∈ xs, p c = true) (hy : ∀ y, ys.head? = some y → p y = false) :
    (xs ++ ys).takeWhile p = xs := by
  induction xs with
  | nil =>
    cases ys with
    | nil => rfl
    | cons y t => simp [List.takeWhile_cons, hy y rfl]
  | cons x xs ih =>
    simp [List.takeWhile_cons, hx x (by simp), ih (fun c hc => hx c (by simp [hc]))]

/-- `dropWhile` drops exactly an all-true prefix stopped by the suffix
head. -/
theorem dropWhile_append_of_all (p : Char → Bool) (xs ys : Str)
    (hx : ∀ c ∈ xs, p c = true) (hy : ∀ y, ys.head? = some y → p y = false) :
    (xs ++ ys).dropWhile p = ys := by
  induction xs with
  | nil =>
    cases ys with
    | nil => rfl
    | cons y t => simp [List.dropWhile_cons, hy y rfl]
  | cons x xs ih =>
    simp [List.dropWhile_cons, hx x (by simp), ih (fun c hc => hx c (by simp [hc]))]

/-- The `Rat.floor` the model computes with is the floor of the ordered
field ℚ. -/
theorem ratFloor_eq_floor (q : ℚ) : Rat.floor q = ⌊q⌋ := rfl

/-- Two-digit decoding of the two-digit renderer. -/
theorem digitsToNat_pad2 {b : ℕ} (hb : b < 100) : digitsToNat (pad2 b) = b := by
  unfold digitsToNat pad2
  simp only [List.foldl_cons, List.foldl_nil]
  rw [digitVal_digitChar (Nat.mod_lt _ (by omega)), digitVal_digitChar (Nat.mod_lt _ (by omega))]
  omega

/-- Every character of the decimal renderer's output is a digit. -/
theorem natRepr_isDigit (n : ℕ) : ∀ c ∈ natRepr n, c.isDigit = true := by
  intro c hc
  obtain ⟨m, rfl⟩ := (natRepr_spec n).2.1 c hc
  exact (digitChar_spec m).1

/-- The magnitude parser decodes an integer part joined by a dot to a
two-digit fraction. -/
theorem parseFloatMag_natRepr_pad2 (a b : ℕ) (hb : b < 100) :
    parseFloatMag (natRepr a ++ '.' :: pad2 b) = some ((a : ℚ) + (b : ℚ) / 100) := by
  unfold parseFloatMag
  rw [takeWhile_append_of_all Char.isDigit (natRepr a) ('.' :: pad2 b) (natRepr_isDigit a)
      (by intro y hy; cases hy; decide),
    dropWhile_append_of_all Char.isDigit (natRepr a) ('.' :: pad2 b) (natRepr_isDigit a)
      (by intro y hy; cases hy; decide)]
  dsimp only
  rw [if_pos rfl]
  have hfp : (pad2 b).takeWhile Char.isDigit = pad2 b := by
    unfold pad2
    simp [List.takeWhile_cons, (digitChar_spec (b / 10 % 10)).1, (digitChar_spec (b % 10)).1]
  rw [hfp]
  rw [if_neg (by simp [(natRepr_spec a).1])]
  rw [(natRepr_spec a).2.2, digitsToNat_pad2 hb]
  norm_num [pad2]

/-- A parse that starts with a non-sign character is the magnitude
parse. -/
theorem parseFloat_eq_mag (s : Str) (hws : s.dropWhile isWs = s)
    (hc : ∀ c, s.head? = some c → c ≠ '-' ∧ c ≠ '+') :
    parseFloat s = parseFloatMag s := by
  unfold parseFloat
  rw [hws]
  cases s with
  | nil => rfl
  | cons c t =>
    have hcc := hc c rfl
    dsimp only
    rw [if_neg hcc.1, if_neg hcc.2]

/-- Whitespace never occurs in the decimal renderer's output. -/
theorem natRepr_no_ws (n : ℕ) : ∀ c ∈ natRepr n, isWs c = false := by
  intro c hc
  obtain ⟨m, rfl⟩ := (natRepr_spec n).2.1 c hc
  exact (digitChar_spec m).2.1

/-- Round trip of the `toFixed(2)` rendering through `parseFloat` for an
exact multiple of one hundredth. -/
theorem parseFloat_toFixed2 (k : ℤ) : parseFloat (toFixed2 ((k : ℚ) / 100)) = some ((k : ℚ) / 100) := by
  have hfl : Rat.floor ((k : ℚ) / 100 * 100 + 1 / 2) = k := by
    have h1 : ((k : ℚ) / 100 * 100 + 1 / 2) = (k : ℚ) + 1 / 2 := by
      field_simp
    rw [h1, ratFloor_eq_floor, Int.floor_int_add]
    norm_num
  unfold toFixed2
  rw [hfl]
  dsimp only
  have hsplit : ((k.natAbs / 100 : ℕ) : ℚ) + ((k.natAbs % 100 : ℕ) : ℚ) / 100 =
      (k.natAbs : ℚ) / 100 := by
    field_simp
    norm_cast
    omega
  have hmag : parseFloatMag (natRepr (k.natAbs / 100) ++ '.' :: pad2 (k.natAbs % 100)) =
      some ((k.natAbs : ℚ) / 100) := by
    rw [parseFloatMag_natRepr_pad2 _ _ (Nat.mod_lt _ (by omega))]
    rw [hsplit]
  by_cases hk : k < 0
  · rw [if_pos hk]
    have hws : isWs '-' = false := by decide
    have hstep : parseFloat ('-' :: (natRepr (k.natAbs / 100) ++ '.' :: pad2 (k.natAbs % 100))) =
        (parseFloatMag (natRepr (k.natAbs / 100) ++ '.' :: pad2 (k.natAbs % 100))).map Neg.neg := by
      unfold parseFloat
      rw [List.dropWhile_cons, hws]
      simp only [Bool.false_eq_true, if_false, if_true]
    rw [List.singleton_append, List.cons_append, hstep, hmag]
    simp only [Option.map_some']
    congr 1
    have : (k : ℚ) = -(k.natAbs : ℚ) := by
      push_cast [Int.cast_natAbs]
      simp [abs_of_neg (by exact_mod_cast hk : (k : ℚ) < 0)]
    rw [this]
    ring
  · rw [if_neg hk]
    rw [List.nil_append]
    have hhead : ∃ c t, natRepr (k.natAbs / 100) = c :: t := by
      cases hn : natRepr (k.natAbs / 100) with
      | nil => exact absurd hn (natRepr_spec _).1
      | cons c t => exact ⟨c, t, rfl⟩
    obtain ⟨c, t, hct⟩ := hhead
    have hcmem : c ∈ natRepr (k.natAbs / 100) := by rw [hct]; simp
    obtain ⟨m, hm⟩ := (natRepr_spec (k.natAbs / 100)).2.1 c hcmem
    have hparse : parseFloat (natRepr (k.natAbs / 100) ++ '.' :: pad2 (k.natAbs % 100)) =
        parseFloatMag (natRepr (k.natAbs / 100) ++ '.' :: pad2 (k.natAbs % 100)) := by
      apply parseFloat_eq_mag
      · rw [hct, List.cons_append, List.dropWhile_cons]
        have : isWs c = false := by rw [hm]; exact (digitChar_spec m).2.1
        simp [this]
      · intro c2 hc2
        rw [hct] at hc2
        simp only [List.cons_append, List.head?_cons, Option.some_inj] at hc2
        subst hc2
        rw [hm]
        exact ⟨(digitChar_spec m).2.2.2.2.2.2.1, (digitChar_spec m).2.2.2.2.2.2.2.1⟩
    rw [hparse, hmag]
    congr 1
    have : (k : ℚ) = (k.natAbs : ℚ) := by
      push_cast [Int.cast_natAbs]
      simp [abs_of_nonneg (by exact_mod_cast (not_lt.mp hk) : (0 : ℚ) ≤ (k : ℚ))]
    rw [this]

/-- No month exceeds 31 days. -/
theorem daysInMonth_le_31 (y m : ℕ) : daysInMonth y m ≤ 31 := by
  unfold daysInMonth
  split_ifs <;> omega

/-- Round trip of the ISO serialization through the ISO parser for a
valid calendar date. -/
theorem parseIsoDate_toISODate (d : JsDate) (h : d.valid) :
    parseIsoDate (toISODate d) = some ⟨d.year, d.month, d.day, 0⟩ := by
  obtain ⟨hy, hm, hda1, hda2, -⟩ := h
  have hd31 : d.day ≤ 31 := le_trans hda2 (daysInMonth_le_31 _ _)
  unfold toISODate pad4 pad2
  simp only [List.cons_append, List.nil_append]
  rw [parseIsoDate]
  have e1 : digitVal (digitChar (d.year / 1000 % 10)) * 1000 +
      digitVal (digitChar (d.year / 100 % 10)) * 100 +
      digitVal (digitChar (d.year / 10 % 10)) * 10 + digitVal (digitChar (d.year % 10)) =
      d.year := by
    rw [digitVal_digitChar (Nat.mod_lt _ (by omega)), digitVal_digitChar (Nat.mod_lt _ (by omega)),
      digitVal_digitChar (Nat.mod_lt _ (by omega)), digitVal_digitChar (Nat.mod_lt _ (by omega))]
    omega
  have e2 : digitVal (digitChar ((d.month + 1) / 10 % 10)) * 10 +
      digitVal (digitChar ((d.month + 1) % 10)) = d.month + 1 := by
    rw [digitVal_digitChar (Nat.mod_lt _ (by omega)), digitVal_digitChar (Nat.mod_lt _ (by omega))]
    omega
  have e3 : digitVal (digitChar (d.day / 10 % 10)) * 10 +
      digitVal (digitChar (d.day % 10)) = d.day := by
    rw [digitVal_digitChar (Nat.mod_lt _ (by omega)), digitVal_digitChar (Nat.mod_lt _ (by omega))]
    omega
  rw [if_pos ⟨⟨rfl, rfl⟩, by
    simp [(digitChar_spec (d.year / 1000 % 10)).1, (digitChar_spec (d.year / 100 % 10)).1,
      (digitChar_spec (d.year / 10 % 10)).1, (digitChar_spec (d.year % 10)).1,
      (digitChar_spec ((d.month + 1) / 10 % 10)).1, (digitChar_spec ((d.month + 1) % 10)).1,
      (digitChar_spec (d.day / 10 % 10)).1, (digitChar_spec (d.day % 10)).1]⟩]
  dsimp only
  rw [e1, e2, e3]
  rw [if_pos ⟨by omega, by omega, by omega, by simpa using hda2⟩]
  simp

/-- A string the ISO parser accepts parses the same through the date
block (the fallback is not reached). -/
theorem jsNewDate_of_iso (s : Str) (d : JsDate) (h : parseIsoDate s = some d) :
    jsNewDate s = some d := by
  unfold jsNewDate
  rw [h]

/-- Tokenizer step: end of line flushes the trimmed current value. -/
theorem go_nil (cur : Str) (b : Bool) : parseCsvValuesGo [] cur b = [trimChars cur] := rfl

/-- Tokenizer step: a comma outside quotes flushes the trimmed current
value. -/
theorem go_comma (rest cur : Str) :
    parseCsvValuesGo (',' :: rest) cur false = trimChars cur :: parseCsvValuesGo rest [] false := by
  rw [parseCsvValuesGo]
  rw [if_neg (by decide : ¬ (',' : Char) = '"')]
  rw [if_pos (⟨rfl, rfl⟩ : (',' : Char) = ',' ∧ (false : Bool) = false)]

/-- Tokenizer step: a double quote toggles the inside-quotes state. -/
theorem go_quote (rest cur : Str) (b : Bool) :
    parseCsvValuesGo ('"' :: rest) cur b = parseCsvValuesGo rest cur (!b) := by
  rw [parseCsvValuesGo]
  rw [if_pos rfl]

/-- Tokenizer run: inside quotes, quote-free characters accumulate. -/
theorem goQuoteTrue (s rest cur : Str) (hq : ∀ c ∈ s, c ≠ '"') :
    parseCsvValuesGo (s ++ rest) cur true = parseCsvValuesGo rest (cur ++ s) true := by
  induction s generalizing cur with
  | nil => simp
  | cons c s ih =>
    have hc : c ≠ '"' := hq c (by simp)
    rw [List.cons_append, parseCsvValuesGo, if_neg hc,
      if_neg (by simp : ¬ (c = ',' ∧ (true : Bool) = false)),
      ih (cur ++ [c]) (fun x hx => hq x (by simp [hx]))]
    simp

/-- Tokenizer run: outside quotes, quote-free comma-free characters
accumulate. -/
theorem goConsume (s rest cur : Str) (h : ∀ c ∈ s, c ≠ '"' ∧ c ≠ ',') :
    parseCsvValuesGo (s ++ rest) cur false = parseCsvValuesGo rest (cur ++ s) false := by
  induction s generalizing cur with
  | nil => simp
  | cons c s ih =>
    have hc := h c (by simp)
    rw [List.cons_append, parseCsvValuesGo, if_neg hc.1,
      if_neg (by simp [hc.2] : ¬ (c = ',' ∧ (false : Bool) = false)),
      ih (cur ++ [c]) (fun x hx => h x (by simp [hx]))]
    simp

/-- Tokenization of one serialized row: the five values come back
trimmed. -/
theorem parseCsvValues_row (v1 v2 v3 v4 v5 : Str)
    (h1 : ∀ c ∈ v1, c ≠ '"' ∧ c ≠ ',') (h2 : ∀ c ∈ v2, c ≠ '"')
    (h3 : ∀ c ∈ v3, c ≠ '"' ∧ c ≠ ',') (h4 : ∀ c ∈ v4, c ≠ '"' ∧ c ≠ ',')
    (h5 : ∀ c ∈ v5, c ≠ '"') :
    parseCsvValues (v1 ++ (',' :: '"' ::
        (v2 ++ ('"' :: ',' :: (v3 ++ (',' :: (v4 ++(',' :: '"' :: (v5 ++ ['"']))))))))) =
      [trimChars v1, trimChars v2, trimChars v3, trimChars v4, trimChars v5] := by
  unfold parseCsvValues
  rw [goConsume v1 _ [] h1, List.nil_append, go_comma, go_quote]
  simp only [Bool.not_false]
  rw [goQuoteTrue v2 _ [] h2, List.nil_append, go_quote]
  simp only [Bool.not_true]
  rw [go_comma, goConsume v3 _ [] h3, List.nil_append, go_comma,
    goConsume v4 _ [] h4, List.nil_append, go_comma, go_quote]
  simp only [Bool.not_false]
  rw [goQuoteTrue v5 _ [] h5, List.nil_append, go_quote]
  simp only [Bool.not_true]
  rw [go_nil]

/-- A text field that survives the CSV round trip verbatim: nonempty,
trim-stable, and free of separators, quotes and line breaks. -/
def cleanField (s : Str) : Prop :=
  s ≠ [] ∧ trimChars s = s ∧ ∀ c ∈ s, c ≠ ',' ∧ c ≠ '"' ∧ c ≠ '\n' ∧ c ≠ '\r'

/-- A transaction whose serialization is parseable back without loss:
valid date, clean text fields, and an amount that is an exact multiple of
one hundredth. -/
def RoundTrippable (tx : InsertTransaction) : Prop :=
  tx.date.valid ∧ cleanField tx.description ∧ cleanField tx.merchant ∧
    cleanField tx.category ∧ ∃ n : ℤ, tx.amount = (n : ℚ) / 100

/-- The lowered header row of the serializer's output. -/
def stdHeaders : List Str :=
  [str "date", str "description", str "amount", str "category", str "merchant"]

/-- One serialized data row of `transactionsToCSV`, without its trailing
newline. -/
def rowCore (tx : InsertTransaction) : Str :=
  toISODate tx.date ++ (',' :: '"' ::
    (escQuotes tx.description ++ ('"' :: ',' :: (toFixed2 tx.amount ++ (',' ::
      ((if tx.category = [] then str "Other" else tx.category) ++ (',' :: '"' ::
        (escQuotes tx.merchant ++ ['"']))))))))

/-- One serialized data row of `transactionsToCSV` with its newline. -/
def rowLine (tx : InsertTransaction) : Str := rowCore tx ++ ['\n']

/-- Quote escaping is the identity on quote-free text. -/
theorem escQuotes_eq_self (s : Str) (h : ∀ c ∈ s, c ≠ '"') : escQuotes s = s := by
  induction s with
  | nil => rfl
  | cons c t ih =>
    unfold escQuotes at ih ⊢
    simp only [List.map_cons, List.flatten_cons]
    rw [if_neg (h c (by simp)), ih (fun x hx => h x (by simp [hx]))]
    rfl

/-- The serializer is the header row followed by the flattened data
rows. -/
theorem transactionsToCSV_eq (transactions : List InsertTransaction) :
    transactionsToCSV transactions =
      str "Date,Description,Amount,Category,Merchant\n" ++
        (transactions.map rowLine).flatten := by
  unfold transactionsToCSV
  suffices h : ∀ (txs : List InsertTransaction) (init : Str),
      txs.foldl
        (fun csv tx =>
          let date := toISODate tx.date
          let description := '"' :: escQuotes tx.description ++ ['"']
          let amount := toFixed2 tx.amount
          let category := if tx.category = [] then str "Other" else tx.category
          let merchant := '"' :: escQuotes tx.merchant ++ ['"']
          csv ++ date ++ ',' :: description ++ ',' :: amount ++ ',' :: category ++
            ',' :: merchant ++ ['\n'])
        init = init ++ (txs.map rowLine).flatten by
    exact h transactions _
  intro txs
  induction txs with
  | nil => intro init; simp
  | cons tx rest ih =>
    intro init
    rw [List.foldl_cons, ih]
    simp [rowLine, rowCore, List.append_assoc]

/-- Every character of the ISO date rendering is a digit or a hyphen. -/
theorem toISODate_chars (d : JsDate) :
    ∀ c ∈ toISODate d, (∃ m, c = digitChar m) ∨ c = '-' := by
  unfold toISODate pad4 pad2
  intro c hc
  simp only [List.cons_append, List.nil_append, List.mem_cons, List.not_mem_nil, or_false] at hc
  rcases hc with h | h | h | h | h | h | h | h | h | h <;>
    first
      | exact Or.inr h
      | exact Or.inl ⟨_, h⟩

/-- Every character of the `toFixed(2)` rendering is a digit, a minus
sign or a dot. -/
theorem toFixed2_chars (q : ℚ) :
    ∀ c ∈ toFixed2 q, (∃ m, c = digitChar m) ∨ c = '-' ∨ c = '.' := by
  unfold toFixed2
  intro c hc
  simp only [List.mem_append, List.mem_cons] at hc
  rcases hc with (h | h) | h | h
  · split at h
    · simp only [List.mem_singleton] at h
      exact Or.inr (Or.inl h)
    · simp at h
  · exact Or.inl ((natRepr_spec _).2.1 c h)
  · exact Or.inr (Or.inr h)
  · unfold pad2 at h
    simp only [List.mem_cons, List.not_mem_nil, or_false] at h
    rcases h with h | h <;> exact Or.inl ⟨_, h⟩

/-- Trimming is the identity when both boundary characters are not
whitespace. -/
theorem trimChars_eq_self_of_bounds (s : Str)
    (h1 : ∀ c, s.head? = some c → isWs c = false)
    (h2 : ∀ c, s.getLast? = some c → isWs c = false) : trimChars s = s := by
  unfold trimChars
  have e1 : s.dropWhile isWs = s := by
    cases s with
    | nil => rfl
    | cons c t => simp [List.dropWhile_cons, h1 c rfl]
  rw [e1]
  have e2 : s.reverse.dropWhile isWs = s.reverse := by
    cases hr : s.reverse with
    | nil => rfl
    | cons c t =>
      have hlast : s.getLast? = some c := by
        rw [← List.head?_reverse, hr]
        rfl
      simp [List.dropWhile_cons, h2 c hlast]
  rw [e2, List.reverse_reverse]

/-- The last element of an append with a nonempty right part. -/
theorem getLast?_append_right (a b : Str) (h : b ≠ []) : (a ++ b).getLast? = b.getLast? := by
  rw [← List.head?_reverse, ← List.head?_reverse, List.reverse_append]
  cases hb : b.reverse with
  | nil => exact absurd (by simpa using hb) h
  | cons c t => rfl

/-- Field facts for the ISO date rendering: no quote, comma, whitespace or
line break occurs in it. -/
theorem toISODate_field (d : JsDate) :
    (∀ c ∈ toISODate d, c ≠ '"' ∧ c ≠ ',') ∧ (∀ c ∈ toISODate d, isWs c = false) ∧
      (∀ c ∈ toISODate d, c ≠ '\n' ∧ c ≠ '\r') := by
  refine ⟨fun c hc => ?_, fun c hc => ?_, fun c hc => ?_⟩ <;>
    rcases toISODate_chars d c hc with ⟨m, rfl⟩ | rfl
  · exact ⟨(digitChar_spec m).2.2.2.1, (digitChar_spec m).2.2.1⟩
  · decide
  · exact (digitChar_spec m).2.1
  · decide
  · exact ⟨(digitChar_spec m).2.2.2.2.1, (digitChar_spec m).2.2.2.2.2.1⟩
  · decide

/-- Field facts for the `toFixed(2)` rendering: no quote, comma,
whitespace or line break occurs in it. -/
theorem toFixed2_field (q : ℚ) :
    (∀ c ∈ toFixed2 q, c ≠ '"' ∧ c ≠ ',') ∧ (∀ c ∈ toFixed2 q, isWs c = false) ∧
      (∀ c ∈ toFixed2 q, c ≠ '\n' ∧ c ≠ '\r') := by
  refine ⟨fun c hc => ?_, fun c hc => ?_, fun c hc => ?_⟩ <;>
    rcases toFixed2_chars q c hc with ⟨m, rfl⟩ | rfl | rfl
  · exact ⟨(digitChar_spec m).2.2.2.1, (digitChar_spec m).2.2.1⟩
  · decide
  · decide
  · exact (digitChar_spec m).2.1
  · decide
  · decide
  · exact ⟨(digitChar_spec m).2.2.2.2.1, (digitChar_spec m).2.2.2.2.2.1⟩
  · decide
  · decide

/-- The ISO date rendering is nonempty. -/
theorem toISODate_ne_nil (d : JsDate) : toISODate d ≠ [] := by
  unfold toISODate pad4
  simp

/-- The ISO date rendering is trim-stable. -/
theorem trim_toISODate (d : JsDate) : trimChars (toISODate d) = toISODate d :=
  trimChars_eq_self _ (toISODate_field d).2.1

/-- The `toFixed(2)` rendering is trim-stable. -/
theorem trim_toFixed2 (q : ℚ) : trimChars (toFixed2 q) = toFixed2 q :=
  trimChars_eq_self _ (toFixed2_field q).2.1

/-- Positional lookups of the five standard columns. -/
theorem rowGet_std (v1 v2 v3 v4 v5 : Str) :
    rowGet stdHeaders [v1, v2, v3, v4, v5] (str "date") = v1 ∧
    rowGet stdHeaders [v1, v2, v3, v4, v5] (str "description") = v2 ∧
    rowGet stdHeaders [v1, v2, v3, v4, v5] (str "amount") = v3 ∧
    rowGet stdHeaders [v1, v2, v3, v4, v5] (str "category") = v4 ∧
    rowGet stdHeaders [v1, v2, v3, v4, v5] (str "merchant") = v5 :=
  ⟨rfl, rfl, rfl, rfl, rfl⟩

/-- Parsing one serialized row under the standard headers reproduces the
transaction, re-anchored to the requested account and with its date
truncated to UTC midnight. -/
theorem parseCsvLine_row (tx : InsertTransaction) (accountId : ℤ) (h : RoundTrippable tx) :
    parseCsvLine (rowCore tx) stdHeaders (str "standard") accountId =
      .ok { tx with accountId := accountId, date := truncToDay tx.date } := by
  obtain ⟨hdate, hdesc, hmerch, hcat, n, hamt⟩ := h
  have hdescq : ∀ c ∈ tx.description, c ≠ '"' := fun c hc => (hdesc.2.2 c hc).2.1
  have hmerchq : ∀ c ∈ tx.merchant, c ≠ '"' := fun c hc => (hmerch.2.2 c hc).2.1
  have hcatne : (if tx.category = [] then str "Other" else tx.category) = tx.category :=
    if_neg hcat.1
  have hvals : parseCsvValues (rowCore tx) =
      [toISODate tx.date, tx.description, toFixed2 tx.amount, tx.category, tx.merchant] := by
    unfold rowCore
    rw [escQuotes_eq_self _ hdescq, escQuotes_eq_self _ hmerchq, hcatne]
    rw [parseCsvValues_row _ _ _ _ _ (toISODate_field tx.date).1 hdescq
      (toFixed2_field tx.amount).1
      (fun c hc => ⟨(hcat.2.2 c hc).2.1, (hcat.2.2 c hc).1⟩) hmerchq]
    rw [trim_toISODate, trim_toFixed2, hdesc.2.1, hcat.2.1, hmerch.2.1]
  unfold parseCsvLine
  rw [hvals]
  rw [if_neg (by simp [stdHeaders])]
  dsimp only
  rw [(rowGet_std _ _ _ _ _).1, (rowGet_std _ _ _ _ _).2.1, (rowGet_std _ _ _ _ _).2.2.1,
    (rowGet_std _ _ _ _ _).2.2.2.1, (rowGet_std _ _ _ _ _).2.2.2.2]
  rw [if_neg (toISODate_ne_nil tx.date)]
  have hnew : jsNewDate (toISODate tx.date) =
      some ⟨tx.date.year, tx.date.month, tx.date.day, 0⟩ :=
    jsNewDate_of_iso _ _ (parseIsoDate_toISODate tx.date hdate)
  rw [hnew]
  dsimp only
  rw [if_neg hdesc.1, if_pos rfl]
  rw [hamt, parseFloat_toFixed2 n]
  dsimp only
  rw [if_neg hcat.1]
  rw [if_neg (by rw [hcat.2.1]; simp [hcat.1])]
  rw [if_neg hmerch.1]
  rfl

/-- The line splitter passes an ordinary character into the current
line. -/
theorem splitLines_cons_other (c : Char) (h1 : c ≠ '\n') (h2 : c ≠ '\r') (rest : Str) :
    splitLines (c :: rest) = consOnHead c (splitLines rest) := by
  rw [splitLines.eq_def]
  split
  · simp_all
  · rename_i heq; injection heq; simp_all
  · rename_i heq; injection heq; simp_all
  · rename_i heq; injection heq with ha hb; subst ha; subst hb; rfl

/-- Splitting at an explicit newline after a break-free prefix. -/
theorem splitLines_append (a b : Str) (h : ∀ c ∈ a, c ≠ '\n' ∧ c ≠ '\r') :
    splitLines (a ++ '\n' :: b) = a :: splitLines b := by
  induction a with
  | nil => rfl
  | cons c a ih =>
    have hc := h c (by simp)
    rw [List.cons_append, splitLines_cons_other c hc.1 hc.2,
      ih (fun x hx => h x (by simp [hx]))]
    rfl

/-- A serialized row contains no line-break character. -/
theorem rowCore_no_newline (tx : InsertTransaction) (h : RoundTrippable tx) :
    ∀ c ∈ rowCore tx, c ≠ '\n' ∧ c ≠ '\r' := by
  obtain ⟨hdate, hdesc, hmerch, hcat, -⟩ := h
  intro c hc
  unfold rowCore at hc
  rw [escQuotes_eq_self _ (fun c hc => (hdesc.2.2 c hc).2.1),
    escQuotes_eq_self _ (fun c hc => (hmerch.2.2 c hc).2.1), if_neg hcat.1] at hc
  simp only [List.mem_append, List.mem_cons, List.not_mem_nil, or_false] at hc
  rcases hc with h | h | h | h | h | h | h | h | h | h | h | h | h
  · exact (toISODate_field tx.date).2.2 c h
  · subst h; decide
  · subst h; decide
  · exact ⟨(hdesc.2.2 c h).2.2.1, (hdesc.2.2 c h).2.2.2⟩
  · subst h; decide
  · subst h; decide
  · exact (toFixed2_field tx.amount).2.2 c h
  · subst h; decide
  · exact ⟨(hcat.2.2 c h).2.2.1, (hcat.2.2 c h).2.2.2⟩
  · subst h; decide
  · subst h; decide
  · exact ⟨(hmerch.2.2 c h).2.2.1, (hmerch.2.2 c h).2.2.2⟩
  · subst h; decide

/-- A serialized row starts with a digit of the year. -/
theorem rowCore_head (tx : InsertTransaction) :
    (rowCore tx).head? = some (digitChar (tx.date.year / 1000 % 10)) := by
  unfold rowCore toISODate pad4
  rfl

/-- The last element of a cons with a nonempty tail. -/
theorem getLast?_cons_of_ne_nil (c : Char) (l : Str) (h : l ≠ []) :
    (c :: l).getLast? = l.getLast? := by
  cases l with
  | nil => exact absurd rfl h
  | cons d t => rfl

/-- A serialized row ends with the closing quote of the merchant field. -/
theorem rowCore_last (tx : InsertTransaction) : (rowCore tx).getLast? = some '"' := by
  unfold rowCore
  rw [getLast?_append_right _ _ (by simp)]
  rw [getLast?_cons_of_ne_nil _ _ (by simp)]
  rw [getLast?_cons_of_ne_nil _ _ (by simp)]
  rw [getLast?_append_right _ _ (by simp)]
  rw [getLast?_cons_of_ne_nil _ _ (by simp)]
  rw [getLast?_cons_of_ne_nil _ _ (by simp)]
  rw [getLast?_append_right _ _ (by simp)]
  rw [getLast?_cons_of_ne_nil _ _ (by simp)]
  rw [getLast?_append_right _ _ (by simp)]
  rw [getLast?_cons_of_ne_nil _ _ (by simp)]
  rw [getLast?_cons_of_ne_nil _ _ (by simp)]
  rw [getLast?_append_right _ _ (by simp)]
  rfl

/-- A serialized row is trim-stable. -/
theorem trim_rowCore (tx : InsertTransaction) : trimChars (rowCore tx) = rowCore tx := by
  apply trimChars_eq_self_of_bounds
  · intro c hc
    rw [rowCore_head] at hc
    cases hc
    exact (digitChar_spec _).2.1
  · intro c hc
    rw [rowCore_last] at hc
    cases hc
    decide

/-- A serialized row is nonempty. -/
theorem rowCore_ne_nil (tx : InsertTransaction) : rowCore tx ≠ [] := by
  intro h
  have := rowCore_head tx
  rw [h] at this
  cases this

/-- Parsing the flattened serialized rows with the data-line loop
reproduces the transaction list with no errors. -/
theorem processLines_rows (accountId : ℤ) (txs : List InsertTransaction)
    (h : ∀ tx ∈ txs, RoundTrippable tx) : ∀ n : ℕ,
    processLines stdHeaders (str "standard") accountId n
        (splitLines ((txs.map rowLine).flatten)) =
      ⟨txs.map (fun tx => { tx with accountId := accountId, date := truncToDay tx.date }), []⟩ := by
  induction txs with
  | nil => intro n; rfl
  | cons tx rest ih =>
    intro n
    have htx := h tx (by simp)
    have hsplit : splitLines ((List.map rowLine (tx :: rest)).flatten) =
        rowCore tx :: splitLines ((List.map rowLine rest).flatten) := by
      simp only [List.map_cons, List.flatten_cons, rowLine]
      rw [List.append_assoc]
      simp only [List.singleton_append]
      exact splitLines_append _ _ (rowCore_no_newline tx htx)
    rw [hsplit]
    simp only [processLines]
    rw [trim_rowCore tx, ih (fun t ht => h t (by simp [ht])) (n + 1)]
    rw [if_neg (rowCore_ne_nil tx)]
    rw [parseCsvLine_row tx accountId htx]
    simp

/-- C3 (amended): for every transaction list whose description, merchant
and category fields are nonempty, trim-stable and free of commas, double
quotes and line breaks, whose amounts are exact multiples of $0.01, and
whose dates are valid calendar instants, parsing the serialized output
reproduces the same amounts, descriptions, categories and merchants under
the requested account, with dates truncated to day precision and zero
errors. -/
theorem transactionsToCSV_roundTrip (txs : List InsertTransaction) (accountId : ℤ)
    (h : ∀ tx ∈ txs, RoundTrippable tx) :
    parseTransactionCsv (transactionsToCSV txs) accountId =
      ⟨txs.map (fun tx => { tx with accountId := accountId, date := truncToDay tx.date }), []⟩ := by
  rw [transactionsToCSV_eq]
  rw [show str "Date,Description,Amount,Category,Merchant\n" =
    str "Date,Description,Amount,Category,Merchant" ++ ['\n'] from rfl]
  rw [List.append_assoc]
  simp only [List.singleton_append]
  unfold parseTransactionCsv
  rw [splitLines_append _ _ (by decide)]
  dsimp only [List.headD_cons, List.drop_one, List.tail_cons]
  rw [show (splitComma (toLowerStr (str "Date,Description,Amount,Category,Merchant"))).map
      trimChars = stdHeaders by decide]
  rw [show detectCsvFormat stdHeaders = some (str "standard") by decide]
  exact processLines_rows accountId txs h 2

/-- Sample transaction whose fields survive the round trip. -/
def rtWitnessTx : InsertTransaction :=
  ⟨5, ⟨2024, 0, 15, 3600000⟩, str "Coffee Shop", -(9 / 2), str "Food", str "Starbucks"⟩

/-- Witness for C3 at a concrete transaction: one clean $-4.50 purchase at
1:00 AM round-trips to the same data at UTC midnight. -/
theorem transactionsToCSV_roundTrip_witness :
    parseTransactionCsv (transactionsToCSV [rtWitnessTx]) 9 =
      ⟨[{ rtWitnessTx with accountId := 9, date := truncToDay rtWitnessTx.date }], []⟩ :=
  transactionsToCSV_roundTrip [rtWitnessTx] 9 (by
    intro tx htx
    simp only [List.mem_singleton] at htx
    subst htx
    refine ⟨by unfold JsDate.valid rtWitnessTx daysInMonth isLeapYear; decide,
      by unfold cleanField rtWitnessTx trimChars; decide,
      by unfold cleanField rtWitnessTx trimChars; decide,
      by unfold cleanField rtWitnessTx trimChars; decide, ⟨-450, by norm_num [rtWitnessTx]⟩⟩)

/-- Sample transaction with a three-decimal amount. -/
def c3Tx : InsertTransaction :=
  ⟨1, ⟨2024, 0, 15, 0⟩, str "Coffee", -(1004 / 1000), str "Food", str "Cafe"⟩

/-- Counterexample to C3 as stated: an amount of -$1.004 has a comma-free
description, yet `toFixed(2)` renders it "-1.00" and the reparse returns
amount -1, not the original amount, so the round trip does not preserve
every amount. -/
theorem roundTrip_exact_counterexample :
    (parseTransactionCsv (transactionsToCSV [c3Tx]) 1).errors = [] ∧
    (parseTransactionCsv (transactionsToCSV [c3Tx]) 1).transactions.map
      InsertTransaction.amount = [-1] ∧
    c3Tx.amount ≠ -1 :=
  ⟨by with_unfolding_all rfl, by with_unfolding_all rfl, by norm_num [c3Tx]⟩
